import Mathlib

/-!
# GLGizmoPainterBase: event handling and rendering of the painter gizmo

A shallow embedding of `src/slic3r/GUI/Gizmos/GLGizmoPainterBase.cpp`.

* `double` and `float` values are rationals (`ℚ`).  The scalar computation of lines
  248-250, whose result is truncated to an integer, rounds every operation to the nearest
  double as IEEE 754 does (`round_to_double`); everywhere else a value stands for itself,
  rounding changing no discrete outcome there, and the casts between `Vec3f` and `Vec3d`
  are the identity.
* `int` values are unbounded integers.  The conversion `int(x)` truncates towards
  zero; the source only defines it when the truncated value fits an `int`.
* Calls into collaborators whose code lives in other files (`Plater`, `ObjectClipper`,
  `TriangleSelector::select_patch`, ...) are recorded, in order, in a log of `Effect`s.
* What the gizmo only reads from its collaborators (camera, model object, raycasters,
  Eigen routines) is gathered in `Scene`.
-/

namespace Slic3r
namespace GUI

/-! ## Data model -/

/-- Eigen `Vec2d`. -/
structure Vec2d where
  x : ℚ
  y : ℚ
deriving DecidableEq, Repr

/-- Eigen `Vec3d` (and, casts being the identity, `Vec3f`). -/
structure Vec3d where
  x : ℚ
  y : ℚ
  z : ℚ
deriving DecidableEq, Repr

/-- Eigen `Vec3f`. -/
abbrev Vec3f := Vec3d

/-- The vector `Vec2d::Zero()`. -/
def Vec2d.Zero : Vec2d := ⟨0, 0⟩

/-- The vector `Vec3f::Zero()`. -/
def Vec3d.Zero : Vec3d := ⟨0, 0, 0⟩

instance : Add Vec2d := ⟨fun a b => ⟨a.x + b.x, a.y + b.y⟩⟩
instance : Sub Vec2d := ⟨fun a b => ⟨a.x - b.x, a.y - b.y⟩⟩
instance : HMul ℚ Vec2d Vec2d := ⟨fun k a => ⟨k * a.x, k * a.y⟩⟩
instance : HDiv Vec2d ℚ Vec2d := ⟨fun a k => ⟨a.x / k, a.y / k⟩⟩
instance : Sub Vec3d := ⟨fun a b => ⟨a.x - b.x, a.y - b.y, a.z - b.z⟩⟩

/-- Eigen `squaredNorm()` of a 3-vector. -/
def Vec3d.squaredNorm (v : Vec3d) : ℚ := v.x * v.x + v.y * v.y + v.z * v.z

/-- Eigen `Transform3d`, kept as its coefficients; its algebra enters through `Scene`. -/
structure Transform3d where
  coeffs : List ℚ
deriving DecidableEq, Repr

/-- The events of `SLAGizmoEventType` that `gizmo_event` tests for; `Other` stands
for the remaining enumerators, none of which the function names. -/
inductive SLAGizmoEventType
  | LeftDown
  | LeftUp
  | RightDown
  | RightUp
  | Dragging
  | MouseWheelUp
  | MouseWheelDown
  | ResetClippingPlane
  | Other
deriving DecidableEq, Repr

/-- The mouse button remembered in `m_button_down`. -/
inductive Button
  | None
  | Left
  | Right
deriving DecidableEq, Repr

/-- Paint state of a triangle. -/
inductive EnforcerBlockerType
  | NONE
  | ENFORCER
  | BLOCKER
deriving DecidableEq, Repr

/-- The two painter gizmos that `get_painter_type()` distinguishes. -/
inductive PainterGizmoType
  | FDM_SUPPORTS
  | SEAM
deriving DecidableEq, Repr

/-- Calls into collaborators, in the order they are made. -/
inductive Effect
  | TakeSnapshot (name : String)
  | enter_gizmos_stack
  | leave_gizmos_stack
  | update_model_object
  | set_position (pos : ℚ) (keep_normal : Bool)
  | set_as_dirty
  | select_patch (mesh_id : Int) (hit : Vec3f) (facet : Nat) (source : Vec3f)
      (dir : Vec3f) (limit : ℚ) (new_state : EnforcerBlockerType)
deriving DecidableEq, Repr

/-- A volume of the model object, as far as the gizmo looks at it. -/
structure ModelVolume where
  is_model_part : Bool
  get_matrix : Transform3d
deriving DecidableEq, Repr

/-- The members of `GLGizmoPainterBase` that `gizmo_event` and
`activate_internal_undo_redo_stack` read or write, the position held by the object
clipper, and the log of calls made so far.  `painter_type` is what `get_painter_type()`
returns and `m_triangle_selectors` the size of the vector of that name; what
`select_patch` does to a selector is in the log. -/
structure GLGizmoPainterBase where
  painter_type : PainterGizmoType
  m_cursor_radius : ℚ
  m_button_down : Button
  m_last_mouse_position : Vec2d
  m_internal_stack_active : Bool
  m_triangle_selectors : Nat
  clipper_position : ℚ
  log : List Effect
deriving DecidableEq, Repr

/-! ## activate_internal_undo_redo_stack -/

/-- Appends a call to the log. -/
def GLGizmoPainterBase.emit (g : GLGizmoPainterBase) (e : Effect) : GLGizmoPainterBase :=
  { g with log := g.log ++ [e] }

/-- The method `GLGizmoPainterBase::activate_internal_undo_redo_stack` (lines 28-46). -/
def activate_internal_undo_redo_stack (activate : Bool) (g : GLGizmoPainterBase) :
    GLGizmoPainterBase :=
  let g1 :=
    if activate && !g.m_internal_stack_active then
      let str := if g.painter_type = PainterGizmoType.FDM_SUPPORTS
        then "Supports gizmo turned on" else "Seam gizmo turned on"
      let g := g.emit (Effect.TakeSnapshot str)
      let g := g.emit Effect.enter_gizmos_stack
      { g with m_internal_stack_active := true }
    else g
  if !activate && g1.m_internal_stack_active then
    let str := if g1.painter_type = PainterGizmoType.SEAM
      then "Seam gizmo turned off" else "Supports gizmo turned off"
    let g2 := g1.emit Effect.leave_gizmos_stack
    let g2 := g2.emit (Effect.TakeSnapshot str)
    { g2 with m_internal_stack_active := false }
  else g1

/-! ## What gizmo_event reads from its collaborators -/

/-- Everything `gizmo_event` reads but does not own: the camera, the selected model
object and instance, the raycasters, the clipping plane of the object clipper, the
Eigen and libslic3r routines it calls, and the class constants declared in the header. -/
structure Scene where
  /-- The value `camera.get_zoom()`. -/
  camera_zoom : ℚ
  /-- The value `camera.get_position()`. -/
  camera_position : Vec3d
  /-- Eigen `norm()` of a 2-vector. -/
  norm : Vec2d → ℚ
  /-- The list `mo->volumes`. -/
  volumes : List ModelVolume
  /-- The matrix of `mo->instances[selection.get_instance_idx()]`. -/
  instance_trafo : Transform3d
  /-- The matrix of `instances[get_active_instance()]`. -/
  active_instance_trafo : Transform3d
  /-- The value `sel_info->get_sla_shift()`. -/
  sla_shift : ℚ
  /-- Product of two transformations. -/
  trafo_mul : Transform3d → Transform3d → Transform3d
  /-- A transformation applied to a point. -/
  trafo_apply : Transform3d → Vec3d → Vec3d
  /-- Eigen `inverse()`. -/
  trafo_inverse : Transform3d → Transform3d
  /-- The function `Geometry::Transformation(t).get_scaling_factor()`. -/
  get_scaling_factor : Transform3d → Vec3d
  /-- Eigen `normalized()`. -/
  normalized : Vec3f → Vec3f
  /-- The call `raycasters()[mesh_id]->unproject_on_mesh(mp, trafo, camera, hit, normal,
  m_clipping_plane.get(), &facet)`: `none` when it returns false, the hit and the
  facet when it returns true. -/
  unproject_on_mesh : Int → Vec2d → Transform3d → Option (Vec3f × Nat)
  /-- The test `get_clipping_plane()->is_point_clipped(p)` of the object clipper when
  its position is the first argument. -/
  is_point_clipped : ℚ → Vec3d → Bool
  /-- The class constant `CursorRadiusMin`. -/
  CursorRadiusMin : ℚ
  /-- The class constant `CursorRadiusMax`. -/
  CursorRadiusMax : ℚ
  /-- The class constant `CursorRadiusStep`. -/
  CursorRadiusStep : ℚ

/-- The method `GLGizmoPainterBase::is_mesh_point_clipped` (lines 166-179). -/
def is_mesh_point_clipped (E : Scene) (g : GLGizmoPainterBase) (point : Vec3d) : Bool :=
  if g.clipper_position = 0 then false
  else
    let transformed_point := E.trafo_apply E.active_instance_trafo point
    let transformed_point : Vec3d :=
      { transformed_point with z := transformed_point.z + E.sla_shift }
    E.is_point_clipped g.clipper_position transformed_point

/-! ## gizmo_event: the seed positions -/

/-- The conversion `int(x)` of a `double`: truncation towards zero.  The source
defines it only while the truncated value fits an `int`, which needs no more than a
quotient below `2 ^ 31`; the integer is not bounded here. -/
def double_to_int (x : ℚ) : Int := if 0 ≤ x then ⌊x⌋ else ⌈x⌉

/-- The power `2 ^ k` of an integer exponent. -/
def pow2 (k : Int) : ℚ :=
  if 0 ≤ k then ((2 ^ k.toNat : ℕ) : ℚ) else 1 / ((2 ^ (-k).toNat : ℕ) : ℚ)

/-- The number of binary digits of `n`, found by halving at most `fuel` times. -/
def bit_length_fuel : Nat → Nat → Nat
  | 0, _ => 0
  | fuel + 1, n => if n = 0 then 0 else bit_length_fuel fuel (n / 2) + 1

/-- The number of binary digits of `n`. -/
def bit_length (n : Nat) : Nat := bit_length_fuel n n

/-- The binary exponent `e` of a positive rational `a`: `2 ^ e ≤ a < 2 ^ (e + 1)`. -/
def binary_exponent (a : ℚ) : Int :=
  let k : Int := (bit_length a.num.natAbs : Int) - (bit_length a.den : Int)
  if pow2 k ≤ a then k else k - 1

/-- Rounding to the nearest integer, a tie going to the even one. -/
def round_half_even (m : ℚ) : Int :=
  if m - ⌊m⌋ < 1 / 2 then ⌊m⌋
  else if 1 / 2 < m - ⌊m⌋ then ⌊m⌋ + 1
  else if ⌊m⌋ % 2 = 0 then ⌊m⌋ else ⌊m⌋ + 1

/-- The double that an arithmetic operation with exact result `x` returns: IEEE 754
binary64, round to nearest, ties to even, that is `x` rounded to 53 significant binary
digits.  The exponent is not bounded: overflow to infinity and gradual underflow, which
need magnitudes above `1.8e308` or below `2.3e-308`, are not modelled. -/
def round_to_double (x : ℚ) : ℚ :=
  if x = 0 then 0
  else
    let quantum := pow2 (binary_exponent |x| - 52)
    (round_half_even (x / quantum) : ℚ) * quantum

/-- The value of `resolution` (line 248): the double written `0.7`. -/
def resolution : ℚ := round_to_double (7 / 10)

/-- The value `diameter_px` of line 249: the product, taken from the left, of two
double multiplications (the `float` `m_cursor_radius` converts to `double` exactly). -/
def diameter_px (E : Scene) (g : GLGizmoPainterBase) : ℚ :=
  round_to_double (round_to_double (resolution * g.m_cursor_radius) * E.camera_zoom)

/-- The previous sample as line 250 reads it: lines 244-245 replace a zero
`m_last_mouse_position` by the current sample. -/
def last_mouse_position (g : GLGizmoPainterBase) (mouse_position : Vec2d) : Vec2d :=
  if g.m_last_mouse_position = Vec2d.Zero then mouse_position else g.m_last_mouse_position

/-- The value `patches_in_between` of line 250: a double subtraction, a double
division, and the conversion to `int`. -/
def patches_in_between (E : Scene) (g : GLGizmoPainterBase) (mouse_position : Vec2d) : Int :=
  double_to_int
    (round_to_double
      (round_to_double
          (E.norm (mouse_position - last_mouse_position g mouse_position) - diameter_px E g)
        / diameter_px E g))

/-- The list `mouse_positions` after lines 238-256. -/
def mouse_positions (E : Scene) (g : GLGizmoPainterBase) (mouse_position : Vec2d) :
    List Vec2d :=
  let last := last_mouse_position g mouse_position
  let n := patches_in_between E g mouse_position
  if n > 0 then
    let diff := (mouse_position - last) / (((n + 1 : Int)) : ℚ)
    [mouse_position] ++
      (List.range n.toNat).map (fun k => last + (((k + 1 : Nat)) : ℚ) * diff)
  else [mouse_position]

/-! ## gizmo_event: casting a ray at one seed position -/

/-- The locals of one pass of the loop of line 260 that the loop over the volumes
(lines 277-310) updates.  `closest_hit_squared_distance` is `none` while it still
holds its initial value `std::numeric_limits<double>::max()`, which no squared
distance reaches. -/
structure RayCast where
  clipped_mesh_was_hit : Bool
  closest_hit : Vec3f
  closest_hit_squared_distance : Option ℚ
  closest_facet : Nat
  closest_hit_mesh_id : Int
  trafo_matrices : List Transform3d
  mesh_id : Int
deriving DecidableEq, Repr

/-- The initial values of lines 261-275. -/
def RayCast.init : RayCast :=
  { clipped_mesh_was_hit := false
    closest_hit := Vec3d.Zero
    closest_hit_squared_distance := none
    closest_facet := 0
    closest_hit_mesh_id := -1
    trafo_matrices := []
    mesh_id := -1 }

/-- The element `trafo_matrices[mesh_id]`. -/
def trafo_at (ts : List Transform3d) (mesh_id : Int) : Transform3d :=
  ts.getD mesh_id.toNat ⟨[]⟩

/-- The test `hit_squared_distance < closest_hit_squared_distance` of line 303. -/
def closer (hit_squared_distance : ℚ) : Option ℚ → Bool
  | none => true
  | some closest => decide (hit_squared_distance < closest)

/-- One pass of the loop over `mo->volumes` (lines 277-310). -/
def cast_ray_on_volume (E : Scene) (g : GLGizmoPainterBase) (mp : Vec2d)
    (r : RayCast) (mv : ModelVolume) : RayCast :=
  if !mv.is_model_part then r
  else
    let mesh_id := r.mesh_id + 1
    let trafo_matrices := r.trafo_matrices ++ [E.trafo_mul E.instance_trafo mv.get_matrix]
    let r := { r with mesh_id := mesh_id, trafo_matrices := trafo_matrices }
    match E.unproject_on_mesh mesh_id mp (trafo_at trafo_matrices mesh_id) with
    | none => r
    | some (hit, facet) =>
      if is_mesh_point_clipped E g hit then { r with clipped_mesh_was_hit := true }
      else
        let hit_squared_distance :=
          (E.camera_position - E.trafo_apply (trafo_at trafo_matrices mesh_id) hit).squaredNorm
        if closer hit_squared_distance r.closest_hit_squared_distance then
          { r with
            closest_hit_squared_distance := some hit_squared_distance
            closest_facet := facet
            closest_hit_mesh_id := mesh_id
            closest_hit := hit }
        else r

/-- The loop over `mo->volumes` for the seed position `mp` (lines 261-310). -/
def cast_rays (E : Scene) (g : GLGizmoPainterBase) (mp : Vec2d) : RayCast :=
  E.volumes.foldl (cast_ray_on_volume E g mp) RayCast.init

/-- The loop "Find respective mesh id" (lines 332-339), entered with `mesh_id`. -/
def find_mesh_id (closest_hit_mesh_id : Int) : List ModelVolume → Int → Int
  | [], mesh_id => mesh_id
  | mv :: rest, mesh_id =>
    if !mv.is_model_part then find_mesh_id closest_hit_mesh_id rest mesh_id
    else if mesh_id + 1 = closest_hit_mesh_id then mesh_id + 1
    else find_mesh_id closest_hit_mesh_id rest (mesh_id + 1)

/-! ## gizmo_event -/

/-- The value `new_state` of lines 219-229. -/
def new_state (action : SLAGizmoEventType) (m_button_down : Button) (shift_down : Bool) :
    EnforcerBlockerType :=
  if !shift_down then
    if action = SLAGizmoEventType.Dragging then
      if m_button_down = Button.Left then EnforcerBlockerType.ENFORCER
      else EnforcerBlockerType.BLOCKER
    else
      if action = SLAGizmoEventType.LeftDown then EnforcerBlockerType.ENFORCER
      else EnforcerBlockerType.BLOCKER
  else EnforcerBlockerType.NONE

/-- Lines 331-355 for the ray-cast result `r`: the loop that recovers the mesh id, the
brush radius in mesh units, the camera position and direction in mesh coordinates, and
the call `m_triangle_selectors[mesh_id]->select_patch(...)` they end in. -/
def select_patch_call (E : Scene) (g : GLGizmoPainterBase) (state : EnforcerBlockerType)
    (r : RayCast) : Effect :=
  let mesh_id := find_mesh_id r.closest_hit_mesh_id E.volumes (-1)
  let trafo_matrix := trafo_at r.trafo_matrices mesh_id
  let sf := E.get_scaling_factor trafo_matrix
  let avg_scaling := (sf.x + sf.y + sf.z) / 3
  let limit := g.m_cursor_radius / avg_scaling
  let camera_pos := E.trafo_apply (E.trafo_inverse trafo_matrix) E.camera_position
  let dir := E.normalized (r.closest_hit - camera_pos)
  Effect.select_patch mesh_id r.closest_hit r.closest_facet camera_pos dir limit state

/-- The loop over the seed positions (lines 260-357) followed by `return true`
(line 359); the `return` of line 327 leaves the loop and the function. -/
def paint (E : Scene) (action : SLAGizmoEventType) (mouse_position : Vec2d)
    (state : EnforcerBlockerType) : List Vec2d → GLGizmoPainterBase → Bool × GLGizmoPainterBase
  | [], g => (true, g)
  | mp :: rest, g =>
    let r := cast_rays E g mp
    let dragging_while_painting :=
      decide (action = SLAGizmoEventType.Dragging) && decide (g.m_button_down ≠ Button.None)
    let g :=
      if decide (r.closest_hit_mesh_id ≠ -1) || r.clipped_mesh_was_hit then
        if g.m_button_down = Button.None then
          { g with m_button_down :=
              if action = SLAGizmoEventType.LeftDown then Button.Left else Button.Right }
        else g
      else g
    if r.closest_hit_mesh_id = -1 then
      (r.clipped_mesh_was_hit || dragging_while_painting, g)
    else
      let g := g.emit (select_patch_call E g state r)
      paint E action mouse_position state rest { g with m_last_mouse_position := mouse_position }

/-- The branch of lines 212-360: a press, or a drag with a button held. -/
def paint_event (E : Scene) (action : SLAGizmoEventType) (mouse_position : Vec2d)
    (shift_down : Bool) (g : GLGizmoPainterBase) : Bool × GLGizmoPainterBase :=
  if g.m_triangle_selectors = 0 then (false, g)
  else
    let state := new_state action g.m_button_down shift_down
    let positions := mouse_positions E g mouse_position
    paint E action mouse_position state positions { g with m_last_mouse_position := Vec2d.Zero }

/-- The value `action_name` of lines 365-385. -/
def action_name (g : GLGizmoPainterBase) (shift_down : Bool) : String :=
  let name := ""
  let name :=
    if g.painter_type = PainterGizmoType.FDM_SUPPORTS then
      if shift_down then "Remove selection"
      else if g.m_button_down = Button.Left then "Add supports" else "Block supports"
    else name
  if g.painter_type = PainterGizmoType.SEAM then
    if shift_down then "Remove selection"
    else if g.m_button_down = Button.Left then "Enforce seam" else "Block seam"
  else name

/-- The branch of lines 362-394: a button is released while a stroke is in progress. -/
def commit_stroke (shift_down : Bool) (g : GLGizmoPainterBase) : Bool × GLGizmoPainterBase :=
  let name := action_name g shift_down
  let g := activate_internal_undo_redo_stack true g
  let g := g.emit (Effect.TakeSnapshot name)
  let g := g.emit Effect.update_model_object
  (true, { g with m_button_down := Button.None, m_last_mouse_position := Vec2d.Zero })

/-- Modelled from the spec: the class `ObjectClipper` behind `m_c->object_clipper()` is
declared outside the sources at hand.  The call `set_position(pos, keep_normal)` is
logged, and `get_position()` returns `pos` from then on. -/
def set_position (pos : ℚ) (keep_normal : Bool) (g : GLGizmoPainterBase) : GLGizmoPainterBase :=
  { g.emit (Effect.set_position pos keep_normal) with clipper_position := pos }

/-- Lines 207-396 of `gizmo_event`: what follows the mouse-wheel block. -/
def gizmo_event_after_wheel (E : Scene) (action : SLAGizmoEventType) (mouse_position : Vec2d)
    (shift_down : Bool) (g : GLGizmoPainterBase) : Bool × GLGizmoPainterBase :=
  if action = SLAGizmoEventType.ResetClippingPlane then
    (true, set_position (-1) false g)
  else if action = SLAGizmoEventType.LeftDown ∨ action = SLAGizmoEventType.RightDown
      ∨ (action = SLAGizmoEventType.Dragging ∧ g.m_button_down ≠ Button.None) then
    paint_event E action mouse_position shift_down g
  else if (action = SLAGizmoEventType.LeftUp ∨ action = SLAGizmoEventType.RightUp)
      ∧ g.m_button_down ≠ Button.None then
    commit_stroke shift_down g
  else (false, g)

/-- The method `GLGizmoPainterBase::gizmo_event` (lines 186-397): the returned flag and
the gizmo after the event. -/
def gizmo_event (E : Scene) (action : SLAGizmoEventType) (mouse_position : Vec2d)
    (shift_down alt_down control_down : Bool) (g : GLGizmoPainterBase) :
    Bool × GLGizmoPainterBase :=
  if action = SLAGizmoEventType.MouseWheelUp ∨ action = SLAGizmoEventType.MouseWheelDown then
    if control_down then
      let pos := g.clipper_position
      let pos := if action = SLAGizmoEventType.MouseWheelDown
        then max 0 (pos - 1 / 100) else min 1 (pos + 1 / 100)
      (true, set_position pos true g)
    else if alt_down then
      let radius := if action = SLAGizmoEventType.MouseWheelDown
        then max (g.m_cursor_radius - E.CursorRadiusStep) E.CursorRadiusMin
        else min (g.m_cursor_radius + E.CursorRadiusStep) E.CursorRadiusMax
      (true, { g with m_cursor_radius := radius }.emit Effect.set_as_dirty)
    else gizmo_event_after_wheel E action mouse_position shift_down g
  else gizmo_event_after_wheel E action mouse_position shift_down g

/-! ## TriangleSelectorGUI::render -/

/-- A triangle of the arena `m_triangles`, as `render` reads it: `is_split` and
`get_state` hold what the methods of these names return. -/
structure Triangle where
  verts_idxs : Int × Int × Int
  valid : Bool
  is_split : Bool
  get_state : EnforcerBlockerType
deriving DecidableEq, Repr

/-- Modelled from the spec: the class `GLIndexedVertexArray` is declared outside the
sources at hand.  A buffer is what has been pushed into it: `push_geometry` appends a
position with its normal, `push_triangle` an index triple, and `release_geometry`
empties both. -/
structure GLIndexedVertexArray where
  geometry : List (Vec3d × Vec3d)
  triangles : List (Int × Int × Int)
deriving DecidableEq, Repr

/-- The call `va.push_geometry(x, y, z, nx, ny, nz)`. -/
def GLIndexedVertexArray.push_geometry (va : GLIndexedVertexArray) (p n : Vec3d) :
    GLIndexedVertexArray :=
  { va with geometry := va.geometry ++ [(p, n)] }

/-- The call `va.push_triangle(a, b, c)`. -/
def GLIndexedVertexArray.push_triangle (va : GLIndexedVertexArray) (a b c : Int) :
    GLIndexedVertexArray :=
  { va with triangles := va.triangles ++ [(a, b, c)] }

/-- The call `va.release_geometry()`. -/
def GLIndexedVertexArray.release_geometry (_va : GLIndexedVertexArray) :
    GLIndexedVertexArray :=
  { geometry := [], triangles := [] }

/-- The members of `TriangleSelectorGUI` that `render` reads or writes. -/
structure TriangleSelectorGUI where
  m_triangles : List Triangle
  m_vertices : List Vec3f
  m_iva_enforcers : GLIndexedVertexArray
  m_iva_blockers : GLIndexedVertexArray
deriving DecidableEq, Repr

/-- The position `m_vertices[i].v`; the source leaves an index outside the array
undefined, the model reads the zero vector there. -/
def vertex_at (m_vertices : List Vec3f) (i : Int) : Vec3f :=
  if 0 ≤ i then m_vertices.getD i.toNat Vec3d.Zero else Vec3d.Zero

/-- Lines 492-499: the three `push_geometry` calls and the `push_triangle` call. -/
def push_triangle_geometry (m_vertices : List Vec3f) (va : GLIndexedVertexArray)
    (tr : Triangle) (cnt : Int) : GLIndexedVertexArray :=
  let va := va.push_geometry (vertex_at m_vertices tr.verts_idxs.1) ⟨0, 0, 1⟩
  let va := va.push_geometry (vertex_at m_vertices tr.verts_idxs.2.1) ⟨0, 0, 1⟩
  let va := va.push_geometry (vertex_at m_vertices tr.verts_idxs.2.2) ⟨0, 0, 1⟩
  va.push_triangle cnt (cnt + 1) (cnt + 2)

/-- The locals and members that the loop of `render` updates. -/
structure RenderLoop where
  enf_cnt : Int
  blc_cnt : Int
  m_iva_enforcers : GLIndexedVertexArray
  m_iva_blockers : GLIndexedVertexArray
deriving DecidableEq, Repr

/-- One pass of the loop of lines 481-501. -/
def render_triangle (m_vertices : List Vec3f) (st : RenderLoop) (tr : Triangle) : RenderLoop :=
  if !tr.valid || tr.is_split || decide (tr.get_state = EnforcerBlockerType.NONE) then st
  else if tr.get_state = EnforcerBlockerType.ENFORCER then
    { st with
      m_iva_enforcers := push_triangle_geometry m_vertices st.m_iva_enforcers tr st.enf_cnt
      enf_cnt := st.enf_cnt + 3 }
  else
    { st with
      m_iva_blockers := push_triangle_geometry m_vertices st.m_iva_blockers tr st.blc_cnt
      blc_cnt := st.blc_cnt + 3 }

/-- The method `TriangleSelectorGUI::render` up to the upload of the two buffers
(lines 475-504); the draw calls that follow do not change them. -/
def TriangleSelectorGUI.render (s : TriangleSelectorGUI) : TriangleSelectorGUI :=
  let init : RenderLoop :=
    { enf_cnt := 0
      blc_cnt := 0
      m_iva_enforcers := s.m_iva_enforcers.release_geometry
      m_iva_blockers := s.m_iva_blockers.release_geometry }
  let st := s.m_triangles.foldl (render_triangle s.m_vertices) init
  { s with m_iva_enforcers := st.m_iva_enforcers, m_iva_blockers := st.m_iva_blockers }

/-! ## Notions used to state the properties -/

/-- The calls of one activation (`true`) or deactivation (`false`) of the internal
stack, with the name of its snapshot. -/
def stack_block (b : Bool × String) : List Effect :=
  if b.1 then [Effect.TakeSnapshot b.2, Effect.enter_gizmos_stack]
  else [Effect.leave_gizmos_stack, Effect.TakeSnapshot b.2]

/-- Selects the calls `enter_gizmos_stack` and `leave_gizmos_stack`. -/
def is_stack_call : Effect → Bool
  | Effect.enter_gizmos_stack => true
  | Effect.leave_gizmos_stack => true
  | _ => false

/-- Selects the calls `select_patch`. -/
def is_select_patch : Effect → Bool
  | Effect.select_patch _ _ _ _ _ _ _ => true
  | _ => false

/-- A sequence of calls of `activate_internal_undo_redo_stack`, one per argument. -/
def activate_calls (bs : List Bool) (g : GLGizmoPainterBase) : GLGizmoPainterBase :=
  bs.foldl (fun g b => activate_internal_undo_redo_stack b g) g

/-- The volumes that are model parts, in order: the one at index `k` has mesh id `k`. -/
def model_parts (vs : List ModelVolume) : List ModelVolume :=
  vs.filter (fun mv => mv.is_model_part)

/-- The transformation of a mesh: instance transformation times volume matrix. -/
def mesh_trafo (E : Scene) (mv : ModelVolume) : Transform3d :=
  E.trafo_mul E.instance_trafo mv.get_matrix

/-- The ray through `mp` hits mesh `k` of `parts` at a point that is not clipped: the
hit, its facet and its squared world-space distance to the camera. -/
def unclipped_hit (E : Scene) (g : GLGizmoPainterBase) (mp : Vec2d)
    (parts : List ModelVolume) (k : Nat) : Option (Vec3f × Nat × ℚ) :=
  match parts[k]? with
  | none => none
  | some mv =>
    match E.unproject_on_mesh k mp (mesh_trafo E mv) with
    | none => none
    | some (hit, facet) =>
      if is_mesh_point_clipped E g hit then none
      else some (hit, facet,
        (E.camera_position - E.trafo_apply (mesh_trafo E mv) hit).squaredNorm)

/-- The ray through `mp` hits mesh `k` of `parts` at a point that is clipped. -/
def clipped_hit (E : Scene) (g : GLGizmoPainterBase) (mp : Vec2d)
    (parts : List ModelVolume) (k : Nat) : Bool :=
  match parts[k]? with
  | none => false
  | some mv =>
    match E.unproject_on_mesh k mp (mesh_trafo E mv) with
    | none => false
    | some (hit, _) => is_mesh_point_clipped E g hit

/-- The seed position `mp` has an unclipped hit on some mesh. -/
def hits (E : Scene) (g : GLGizmoPainterBase) (mp : Vec2d) : Bool :=
  decide ((cast_rays E g mp).closest_hit_mesh_id ≠ -1)

/-- The gizmo after lines 317-320 when the ray met a mesh: a button that was not down
is captured. -/
def capture_button (action : SLAGizmoEventType) (g : GLGizmoPainterBase) : GLGizmoPainterBase :=
  if g.m_button_down = Button.None then
    { g with m_button_down :=
        if action = SLAGizmoEventType.LeftDown then Button.Left else Button.Right }
  else g

/-- The closest unclipped hit among the meshes `parts`, as the loop over the volumes
holds it in `closest_hit_mesh_id`, `closest_hit`, `closest_facet` and
`closest_hit_squared_distance`: either no mesh has an unclipped hit, or mesh `k` has
one, no other is closer, and those of the meshes before `k` are strictly farther. -/
def Best (E : Scene) (g : GLGizmoPainterBase) (mp : Vec2d) (parts : List ModelVolume)
    (id : Int) (hit : Vec3f) (facet : Nat) (dist : Option ℚ) : Prop :=
  (id = -1 ∧ dist = none ∧ ∀ k, unclipped_hit E g mp parts k = none) ∨
    ∃ (k : Nat) (d : ℚ),
      id = (k : Int) ∧ unclipped_hit E g mp parts k = some (hit, facet, d) ∧
      dist = some d ∧
      ∀ j x, unclipped_hit E g mp parts j = some x → d ≤ x.2.2 ∧ (j < k → d < x.2.2)

/-- What the loop over the volumes has established once the model parts `parts` have
been visited. -/
def RayInv (E : Scene) (g : GLGizmoPainterBase) (mp : Vec2d) (parts : List ModelVolume)
    (r : RayCast) : Prop :=
  r.mesh_id = (parts.length : Int) - 1 ∧
  r.trafo_matrices = parts.map (mesh_trafo E) ∧
  (r.clipped_mesh_was_hit = true ↔ ∃ k, clipped_hit E g mp parts k = true) ∧
  Best E g mp parts r.closest_hit_mesh_id r.closest_hit r.closest_facet
    r.closest_hit_squared_distance

/-- The triangles of the arena that `render` draws in state `st`: valid, not split and
in that state, in arena order. -/
def drawn (st : EnforcerBlockerType) (m_triangles : List Triangle) : List Triangle :=
  m_triangles.filter (fun tr => tr.valid && !tr.is_split && decide (tr.get_state = st))

/-- The three vertex positions of a triangle, each with the normal `(0, 0, 1)`. -/
def triangle_geometry (m_vertices : List Vec3f) (tr : Triangle) : List (Vec3d × Vec3d) :=
  [(vertex_at m_vertices tr.verts_idxs.1, ⟨0, 0, 1⟩),
   (vertex_at m_vertices tr.verts_idxs.2.1, ⟨0, 0, 1⟩),
   (vertex_at m_vertices tr.verts_idxs.2.2, ⟨0, 0, 1⟩)]

/-- The index triples `(3k, 3k+1, 3k+2)` for `k = 0, ..., n-1`. -/
def index_triples (n : Nat) : List (Int × Int × Int) :=
  (List.range n).map (fun k => ((3 * k : Int), (3 * k + 1 : Int), (3 * k + 2 : Int)))

/-- What the loop of `render` has established once the triangles `pre` have been
visited. -/
def RenderInv (m_vertices : List Vec3f) (pre : List Triangle) (st : RenderLoop) : Prop :=
  st.enf_cnt = 3 * ((drawn EnforcerBlockerType.ENFORCER pre).length : Int) ∧
  st.blc_cnt = 3 * ((drawn EnforcerBlockerType.BLOCKER pre).length : Int) ∧
  st.m_iva_enforcers.geometry =
    (drawn EnforcerBlockerType.ENFORCER pre).flatMap (triangle_geometry m_vertices) ∧
  st.m_iva_enforcers.triangles =
    index_triples (drawn EnforcerBlockerType.ENFORCER pre).length ∧
  st.m_iva_blockers.geometry =
    (drawn EnforcerBlockerType.BLOCKER pre).flatMap (triangle_geometry m_vertices) ∧
  st.m_iva_blockers.triangles =
    index_triples (drawn EnforcerBlockerType.BLOCKER pre).length

/-! ## A concrete scene -/

/-- A scene at zoom 1 with one unscaled model-part volume whose surface has a gap: the
ray through a seed position meets the mesh unless `12 < x < 20`.  The norm is given
as `|x| + |y|`, which is the Euclidean norm on the vectors along an axis, the only
ones measured in this scene. -/
def gap_scene : Scene :=
  { camera_zoom := 1
    camera_position := ⟨0, 0, 100⟩
    norm := fun v => |v.x| + |v.y|
    volumes := [⟨true, ⟨[]⟩⟩]
    instance_trafo := ⟨[]⟩
    active_instance_trafo := ⟨[]⟩
    sla_shift := 0
    trafo_mul := fun a b => ⟨a.coeffs ++ b.coeffs⟩
    trafo_apply := fun _ p => p
    trafo_inverse := fun t => t
    get_scaling_factor := fun _ => ⟨1, 1, 1⟩
    normalized := fun v => v
    unproject_on_mesh := fun _ mp _ =>
      if 12 < mp.x ∧ mp.x < 20 then none else some (⟨mp.x, mp.y, 0⟩, 0)
    is_point_clipped := fun _ _ => false
    CursorRadiusMin := 2 / 5
    CursorRadiusMax := 8
    CursorRadiusStep := 1 / 5 }

/-- A gizmo in the middle of a stroke: the left button is held, the previous sample
`(10, 0)` was a hit, the brush radius is 10 and the clipping plane is off. -/
def stroke_gizmo : GLGizmoPainterBase :=
  { painter_type := PainterGizmoType.FDM_SUPPORTS
    m_cursor_radius := 10
    m_button_down := Button.Left
    m_last_mouse_position := ⟨10, 0⟩
    m_internal_stack_active := false
    m_triangle_selectors := 1
    clipper_position := 0
    log := [] }

/-- The scene `gap_scene` with a clipping plane that clips every point. -/
def clipped_scene : Scene :=
  { gap_scene with is_point_clipped := fun _ _ => true }

/-- A gizmo between strokes: no button is held, no previous sample is stored, and the
clipping plane is on, at position 1/2. -/
def idle_gizmo : GLGizmoPainterBase :=
  { stroke_gizmo with
    m_button_down := Button.None
    m_last_mouse_position := Vec2d.Zero
    clipper_position := 1 / 2 }

/-- The point at parameter `t` of the `n + 1` equal steps from `p` (`t = 0`) to `c`
(`t = n + 1`): `p + t * (c - p) / (n + 1)`. -/
def stroke_position (p c : Vec2d) (n : Nat) (t : ℚ) : Vec2d :=
  p + (t * (c - p)) / ((n : ℚ) + 1)

/-- The point `x` lies strictly inside the brush disc around `center`, whose radius on
the screen is `m_cursor_radius * zoom`. -/
def in_brush_disc (E : Scene) (g : GLGizmoPainterBase) (center x : Vec2d) : Prop :=
  E.norm (x - center) < g.m_cursor_radius * E.camera_zoom

/-- The scene `gap_scene` seen at the zoom that the double written `3.95` holds. -/
def zoomed_scene : Scene :=
  { gap_scene with camera_zoom := round_to_double (79 / 20) }

/-- A gizmo in the middle of a stroke with the brush at radius 8, the largest of
`gap_scene`, and the previous sample at `(1, 0)`. -/
def long_stroke_gizmo : GLGizmoPainterBase :=
  { stroke_gizmo with
    m_cursor_radius := 8
    m_last_mouse_position := ⟨1, 0⟩ }

/-! ## Properties of activate_internal_undo_redo_stack -/

theorem activate_eq_of_flag (b : Bool) (g : GLGizmoPainterBase)
    (h : g.m_internal_stack_active = b) : activate_internal_undo_redo_stack b g = g := by
  cases b <;> simp [activate_internal_undo_redo_stack, h]

theorem activate_true_of_inactive (g : GLGizmoPainterBase)
    (h : g.m_internal_stack_active = false) :
    activate_internal_undo_redo_stack true g =
      { g with
        m_internal_stack_active := true
        log := g.log ++ [Effect.TakeSnapshot
          (if g.painter_type = PainterGizmoType.FDM_SUPPORTS
            then "Supports gizmo turned on" else "Seam gizmo turned on"),
          Effect.enter_gizmos_stack] } := by
  simp [activate_internal_undo_redo_stack, h, GLGizmoPainterBase.emit]

theorem activate_false_of_active (g : GLGizmoPainterBase)
    (h : g.m_internal_stack_active = true) :
    activate_internal_undo_redo_stack false g =
      { g with
        m_internal_stack_active := false
        log := g.log ++ [Effect.leave_gizmos_stack, Effect.TakeSnapshot
          (if g.painter_type = PainterGizmoType.SEAM
            then "Seam gizmo turned off" else "Supports gizmo turned off")] } := by
  simp [activate_internal_undo_redo_stack, h, GLGizmoPainterBase.emit]

theorem activate_flag (b : Bool) (g : GLGizmoPainterBase) :
    (activate_internal_undo_redo_stack b g).m_internal_stack_active = b := by
  cases b <;> cases h : g.m_internal_stack_active <;>
    simp [activate_internal_undo_redo_stack, h, GLGizmoPainterBase.emit]

theorem activate_calls_blocks (bs : List Bool) (g : GLGizmoPainterBase) :
    ∃ blocks : List (Bool × String),
      (activate_calls bs g).log = g.log ++ blocks.flatMap stack_block ∧
      List.Chain' (fun a b => a.1 ≠ b.1) blocks ∧
      (∀ a ∈ blocks.head?, a.1 = !g.m_internal_stack_active) ∧
      (∀ a ∈ blocks.getLast?, a.1 = (activate_calls bs g).m_internal_stack_active) ∧
      (blocks = [] →
        (activate_calls bs g).m_internal_stack_active = g.m_internal_stack_active) := by
  induction bs using List.reverseRecOn with
  | nil => exact ⟨[], by simp [activate_calls]⟩
  | append_singleton bs b ih =>
    obtain ⟨blocks, hlog, hchain, hhead, hlast, hnil⟩ := ih
    have hstep : activate_calls (bs ++ [b]) g =
        activate_internal_undo_redo_stack b (activate_calls bs g) := by
      simp [activate_calls, List.foldl_append]
    by_cases hb : (activate_calls bs g).m_internal_stack_active = b
    · refine ⟨blocks, ?_, hchain, hhead, ?_, ?_⟩
      · rw [hstep, activate_eq_of_flag b _ hb, hlog]
      · rw [hstep, activate_eq_of_flag b _ hb]; exact hlast
      · rw [hstep, activate_eq_of_flag b _ hb]; exact hnil
    · have hex : ∃ s, (activate_internal_undo_redo_stack b (activate_calls bs g)).log =
          (activate_calls bs g).log ++ stack_block (b, s) := by
        cases b with
        | true =>
          have h0 : (activate_calls bs g).m_internal_stack_active = false := by
            cases h : (activate_calls bs g).m_internal_stack_active <;> simp_all
          exact ⟨_, by rw [activate_true_of_inactive _ h0]; simp only [stack_block]; rfl⟩
        | false =>
          have h0 : (activate_calls bs g).m_internal_stack_active = true := by
            cases h : (activate_calls bs g).m_internal_stack_active <;> simp_all
          exact ⟨_, by rw [activate_false_of_active _ h0]; simp only [stack_block]; rfl⟩
      obtain ⟨s, hs⟩ := hex
      refine ⟨blocks ++ [(b, s)], ?_, ?_, ?_, ?_, ?_⟩
      · rw [hstep, hs, hlog]; simp [List.flatMap_append]
      · refine List.Chain'.append hchain (List.chain'_singleton _) ?_
        intro x hx y hy
        simp at hy
        subst hy
        rw [hlast x hx]
        exact hb
      · intro a ha
        cases blocks with
        | nil =>
          simp at ha
          subst ha
          have := hnil rfl
          rw [this] at hb
          cases b <;> cases h : g.m_internal_stack_active <;> simp_all
        | cons x xs => exact hhead a (by simpa using ha)
      · intro a ha
        simp at ha
        subst ha
        rw [hstep, activate_flag]
      · intro h
        simp at h

theorem filter_stack_call_blocks (blocks : List (Bool × String)) :
    (blocks.flatMap stack_block).filter is_stack_call =
      blocks.map (fun b => if b.1 then Effect.enter_gizmos_stack
        else Effect.leave_gizmos_stack) := by
  induction blocks with
  | nil => rfl
  | cons b bs ih =>
    rw [List.flatMap_cons, List.filter_append, ih]
    obtain ⟨b1, b2⟩ := b
    cases b1 <;> simp [stack_block, is_stack_call]

theorem chain_stack_call_blocks (blocks : List (Bool × String))
    (h : List.Chain' (fun a b => a.1 ≠ b.1) blocks) :
    List.Chain' (fun a b => a ≠ b) ((blocks.flatMap stack_block).filter is_stack_call) := by
  rw [filter_stack_call_blocks, List.chain'_map]
  refine h.imp ?_
  rintro ⟨a1, a2⟩ ⟨b1, b2⟩ hab
  cases a1 <;> cases b1 <;> simp_all

/-- C8: after `activate_internal_undo_redo_stack(b)` the flag equals `b`; a call whose
argument equals the flag changes nothing; a call that turns the stack on takes one
snapshot and then enters the gizmo stack, a call that turns it off leaves the gizmo
stack and then takes one snapshot; two calls in a row with the same argument act as
one; and over any sequence of calls the log grows by blocks "snapshot, enter" and
"leave, snapshot" that strictly alternate, so `enter_gizmos_stack` and
`leave_gizmos_stack` strictly alternate. -/
theorem activate_internal_undo_redo_stack_contract :
    (∀ (b : Bool) (g : GLGizmoPainterBase),
      (activate_internal_undo_redo_stack b g).m_internal_stack_active = b) ∧
    (∀ (b : Bool) (g : GLGizmoPainterBase), g.m_internal_stack_active = b →
      activate_internal_undo_redo_stack b g = g) ∧
    (∀ g : GLGizmoPainterBase, g.m_internal_stack_active = false →
      ∃ str, activate_internal_undo_redo_stack true g =
        { g with
          m_internal_stack_active := true
          log := g.log ++ [Effect.TakeSnapshot str, Effect.enter_gizmos_stack] }) ∧
    (∀ g : GLGizmoPainterBase, g.m_internal_stack_active = true →
      ∃ str, activate_internal_undo_redo_stack false g =
        { g with
          m_internal_stack_active := false
          log := g.log ++ [Effect.leave_gizmos_stack, Effect.TakeSnapshot str] }) ∧
    (∀ (b : Bool) (g : GLGizmoPainterBase),
      activate_internal_undo_redo_stack b (activate_internal_undo_redo_stack b g) =
        activate_internal_undo_redo_stack b g) ∧
    (∀ (bs : List Bool) (g : GLGizmoPainterBase),
      ∃ blocks : List (Bool × String),
        (activate_calls bs g).log = g.log ++ blocks.flatMap stack_block ∧
        List.Chain' (fun a b => a.1 ≠ b.1) blocks ∧
        (∀ a ∈ blocks.head?, a.1 = !g.m_internal_stack_active) ∧
        List.Chain' (fun a b => a ≠ b)
          ((blocks.flatMap stack_block).filter is_stack_call)) := by
  refine ⟨activate_flag, activate_eq_of_flag, ?_, ?_, ?_, ?_⟩
  · intro g h
    exact ⟨_, activate_true_of_inactive g h⟩
  · intro g h
    exact ⟨_, activate_false_of_active g h⟩
  · intro b g
    exact activate_eq_of_flag b _ (activate_flag b g)
  · intro bs g
    obtain ⟨blocks, hlog, hchain, hhead, _, _⟩ := activate_calls_blocks bs g
    exact ⟨blocks, hlog, hchain, hhead, chain_stack_call_blocks blocks hchain⟩

/-! ## Properties of the ray cast at one seed position -/

theorem unclipped_hit_append_lt (E : Scene) (g : GLGizmoPainterBase) (mp : Vec2d)
    (parts : List ModelVolume) (v : ModelVolume) (k : Nat) (h : k < parts.length) :
    unclipped_hit E g mp (parts ++ [v]) k = unclipped_hit E g mp parts k := by
  simp [unclipped_hit, List.getElem?_append_left h]

theorem unclipped_hit_length_le (E : Scene) (g : GLGizmoPainterBase) (mp : Vec2d)
    (parts : List ModelVolume) (k : Nat) (h : parts.length ≤ k) :
    unclipped_hit E g mp parts k = none := by
  simp [unclipped_hit, List.getElem?_eq_none h]

theorem clipped_hit_append_lt (E : Scene) (g : GLGizmoPainterBase) (mp : Vec2d)
    (parts : List ModelVolume) (v : ModelVolume) (k : Nat) (h : k < parts.length) :
    clipped_hit E g mp (parts ++ [v]) k = clipped_hit E g mp parts k := by
  simp [clipped_hit, List.getElem?_append_left h]

theorem clipped_hit_length_le (E : Scene) (g : GLGizmoPainterBase) (mp : Vec2d)
    (parts : List ModelVolume) (k : Nat) (h : parts.length ≤ k) :
    clipped_hit E g mp parts k = false := by
  simp [clipped_hit, List.getElem?_eq_none h]

theorem trafo_at_append_new (ts : List Transform3d) (t : Transform3d) :
    trafo_at (ts ++ [t]) (ts.length : Int) = t := by
  simp [trafo_at]


theorem hit_append_none (E : Scene) (g : GLGizmoPainterBase) (mp : Vec2d)
    (parts : List ModelVolume) (v : ModelVolume)
    (h : E.unproject_on_mesh (parts.length : Int) mp (mesh_trafo E v) = none) :
    unclipped_hit E g mp (parts ++ [v]) parts.length = none ∧
      clipped_hit E g mp (parts ++ [v]) parts.length = false := by
  simp [unclipped_hit, clipped_hit, h]

theorem hit_append_clipped (E : Scene) (g : GLGizmoPainterBase) (mp : Vec2d)
    (parts : List ModelVolume) (v : ModelVolume) (hit : Vec3f) (facet : Nat)
    (h : E.unproject_on_mesh (parts.length : Int) mp (mesh_trafo E v) = some (hit, facet))
    (hc : is_mesh_point_clipped E g hit = true) :
    unclipped_hit E g mp (parts ++ [v]) parts.length = none ∧
      clipped_hit E g mp (parts ++ [v]) parts.length = true := by
  simp [unclipped_hit, clipped_hit, h, hc]

theorem hit_append_unclipped (E : Scene) (g : GLGizmoPainterBase) (mp : Vec2d)
    (parts : List ModelVolume) (v : ModelVolume) (hit : Vec3f) (facet : Nat)
    (h : E.unproject_on_mesh (parts.length : Int) mp (mesh_trafo E v) = some (hit, facet))
    (hc : is_mesh_point_clipped E g hit = false) :
    unclipped_hit E g mp (parts ++ [v]) parts.length =
        some (hit, facet,
          (E.camera_position - E.trafo_apply (mesh_trafo E v) hit).squaredNorm) ∧
      clipped_hit E g mp (parts ++ [v]) parts.length = false := by
  simp [unclipped_hit, clipped_hit, h, hc]

theorem clipped_exists_append (E : Scene) (g : GLGizmoPainterBase) (mp : Vec2d)
    (parts : List ModelVolume) (v : ModelVolume) :
    (∃ k, clipped_hit E g mp (parts ++ [v]) k = true) ↔
      (∃ k, clipped_hit E g mp parts k = true) ∨
        clipped_hit E g mp (parts ++ [v]) parts.length = true := by
  constructor
  · rintro ⟨k, hk⟩
    rcases Nat.lt_trichotomy k parts.length with h | h | h
    · left
      exact ⟨k, by rwa [clipped_hit_append_lt E g mp parts v k h] at hk⟩
    · right
      rw [← h]; exact hk
    · rw [clipped_hit_length_le E g mp (parts ++ [v]) k (by simp; omega)] at hk
      simp at hk
  · rintro (⟨k, hk⟩ | h)
    · have hlt : k < parts.length := by
        by_contra hge
        rw [clipped_hit_length_le E g mp parts k (by omega)] at hk
        simp at hk
      exact ⟨k, by rwa [clipped_hit_append_lt E g mp parts v k hlt]⟩
    · exact ⟨_, h⟩

theorem unclipped_hit_append_cases (E : Scene) (g : GLGizmoPainterBase) (mp : Vec2d)
    (parts : List ModelVolume) (v : ModelVolume) (k : Nat) :
    unclipped_hit E g mp (parts ++ [v]) k = unclipped_hit E g mp parts k ∨
      (k = parts.length ∧ unclipped_hit E g mp parts k = none) := by
  rcases Nat.lt_trichotomy k parts.length with h | h | h
  · left; exact unclipped_hit_append_lt E g mp parts v k h
  · right; exact ⟨h, unclipped_hit_length_le E g mp parts k (by omega)⟩
  · left
    rw [unclipped_hit_length_le E g mp parts k (by omega),
      unclipped_hit_length_le E g mp (parts ++ [v]) k (by simp; omega)]

theorem unclipped_hit_lt (E : Scene) (g : GLGizmoPainterBase) (mp : Vec2d)
    (parts : List ModelVolume) (k : Nat) (x : Vec3f × Nat × ℚ)
    (h : unclipped_hit E g mp parts k = some x) : k < parts.length := by
  by_contra hge
  rw [unclipped_hit_length_le E g mp parts k (by omega)] at h
  simp at h

theorem Best_append_none (E : Scene) (g : GLGizmoPainterBase) (mp : Vec2d)
    (parts : List ModelVolume) (v : ModelVolume) (id : Int) (hit : Vec3f) (facet : Nat)
    (dist : Option ℚ) (h : Best E g mp parts id hit facet dist)
    (hn : unclipped_hit E g mp (parts ++ [v]) parts.length = none) :
    Best E g mp (parts ++ [v]) id hit facet dist := by
  rcases h with ⟨h1, h2, h3⟩ | ⟨k, d, h1, h2, h3, h4⟩
  · left
    refine ⟨h1, h2, ?_⟩
    intro k
    rcases unclipped_hit_append_cases E g mp parts v k with hk | ⟨hk, _⟩
    · rw [hk]; exact h3 k
    · rw [hk]; exact hn
  · right
    have hklt := unclipped_hit_lt E g mp parts k _ h2
    refine ⟨k, d, h1, ?_, h3, ?_⟩
    · rw [unclipped_hit_append_lt E g mp parts v k hklt]; exact h2
    · intro j x hj
      rcases unclipped_hit_append_cases E g mp parts v j with hk | ⟨hk, _⟩
      · rw [hk] at hj; exact h4 j x hj
      · rw [hk, hn] at hj; simp at hj

theorem Best_append_closer (E : Scene) (g : GLGizmoPainterBase) (mp : Vec2d)
    (parts : List ModelVolume) (v : ModelVolume) (id : Int) (hit : Vec3f) (facet : Nat)
    (dist : Option ℚ) (h : Best E g mp parts id hit facet dist)
    (hit1 : Vec3f) (facet1 : Nat) (d1 : ℚ)
    (hn : unclipped_hit E g mp (parts ++ [v]) parts.length = some (hit1, facet1, d1))
    (hc : closer d1 dist = true) :
    Best E g mp (parts ++ [v]) (parts.length : Int) hit1 facet1 (some d1) := by
  right
  refine ⟨parts.length, d1, rfl, hn, rfl, ?_⟩
  intro j x hj
  rcases unclipped_hit_append_cases E g mp parts v j with hk | ⟨hk, _⟩
  · rw [hk] at hj
    have hjlt := unclipped_hit_lt E g mp parts j _ hj
    rcases h with ⟨_, _, h3⟩ | ⟨k, d, _, _, h3, h4⟩
    · rw [h3 j] at hj; simp at hj
    · have := (h4 j x hj).1
      rw [h3] at hc
      simp [closer] at hc
      exact ⟨by linarith, fun _ => by linarith⟩
  · rw [hk, hn] at hj
    simp at hj
    subst hj
    exact ⟨le_refl _, fun hlt => absurd hlt (by omega)⟩

theorem Best_append_farther (E : Scene) (g : GLGizmoPainterBase) (mp : Vec2d)
    (parts : List ModelVolume) (v : ModelVolume) (id : Int) (hit : Vec3f) (facet : Nat)
    (dist : Option ℚ) (h : Best E g mp parts id hit facet dist)
    (hit1 : Vec3f) (facet1 : Nat) (d1 : ℚ)
    (hn : unclipped_hit E g mp (parts ++ [v]) parts.length = some (hit1, facet1, d1))
    (hc : closer d1 dist = false) :
    Best E g mp (parts ++ [v]) id hit facet dist := by
  rcases h with ⟨_, h2, _⟩ | ⟨k, d, h1, h2, h3, h4⟩
  · rw [h2] at hc; simp [closer] at hc
  · right
    have hklt := unclipped_hit_lt E g mp parts k _ h2
    rw [h3] at hc
    simp [closer] at hc
    refine ⟨k, d, h1, ?_, h3, ?_⟩
    · rw [unclipped_hit_append_lt E g mp parts v k hklt]; exact h2
    · intro j x hj
      rcases unclipped_hit_append_cases E g mp parts v j with hk | ⟨hk, _⟩
      · rw [hk] at hj; exact h4 j x hj
      · rw [hk, hn] at hj
        simp at hj
        subst hj
        exact ⟨hc, fun hlt => absurd hlt (by omega)⟩

theorem RayInv_init (E : Scene) (g : GLGizmoPainterBase) (mp : Vec2d) :
    RayInv E g mp [] RayCast.init := by
  refine ⟨by simp [RayCast.init], by simp [RayCast.init], ?_, ?_⟩
  · simp [RayCast.init, clipped_hit]
  · left
    simp [RayCast.init, unclipped_hit]

theorem RayInv_step (E : Scene) (g : GLGizmoPainterBase) (mp : Vec2d)
    (parts : List ModelVolume) (r : RayCast) (v : ModelVolume)
    (hv : v.is_model_part = true) (h : RayInv E g mp parts r) :
    RayInv E g mp (parts ++ [v]) (cast_ray_on_volume E g mp r v) := by
  obtain ⟨hid, htr, hclip, hbest⟩ := h
  have hid1 : r.mesh_id + 1 = (parts.length : Int) := by omega
  have htrafo : trafo_at (r.trafo_matrices ++ [E.trafo_mul E.instance_trafo v.get_matrix])
      (r.mesh_id + 1) = mesh_trafo E v := by
    rw [hid1, htr]
    have := trafo_at_append_new (parts.map (mesh_trafo E)) (mesh_trafo E v)
    simpa [mesh_trafo] using this
  have hmap : r.trafo_matrices ++ [E.trafo_mul E.instance_trafo v.get_matrix] =
      (parts ++ [v]).map (mesh_trafo E) := by
    rw [htr]; simp [mesh_trafo]
  have hlen : (parts.length : Int) = (((parts ++ [v]).length : Nat) : Int) - 1 := by
    simp
  unfold cast_ray_on_volume
  simp only [hv, Bool.not_true, Bool.false_eq_true, if_false, htrafo]
  rw [hid1]
  cases hu : E.unproject_on_mesh (parts.length : Int) mp (mesh_trafo E v) with
  | none =>
    obtain ⟨hn1, hn2⟩ := hit_append_none E g mp parts v hu
    refine ⟨hlen, hmap, ?_, Best_append_none E g mp parts v _ _ _ _ hbest hn1⟩
    rw [clipped_exists_append, hn2]
    simpa using hclip
  | some hf =>
    obtain ⟨hit, facet⟩ := hf
    cases hc : is_mesh_point_clipped E g hit with
    | true =>
      obtain ⟨hn1, hn2⟩ := hit_append_clipped E g mp parts v hit facet hu hc
      simp only [hc, if_true]
      refine ⟨hlen, hmap, ?_, Best_append_none E g mp parts v _ _ _ _ hbest hn1⟩
      rw [clipped_exists_append, hn2]
      simp
    | false =>
      obtain ⟨hn1, hn2⟩ := hit_append_unclipped E g mp parts v hit facet hu hc
      cases hcl : closer (E.camera_position - E.trafo_apply (mesh_trafo E v) hit).squaredNorm
          r.closest_hit_squared_distance with
      | true =>
        simp only [hc, hcl, if_true, if_false, Bool.false_eq_true]
        refine ⟨hlen, hmap, ?_, ?_⟩
        · rw [clipped_exists_append, hn2]
          simpa using hclip
        · simpa using Best_append_closer E g mp parts v _ _ _ _ hbest hit facet _ hn1 hcl
      | false =>
        simp only [hc, hcl, if_false, Bool.false_eq_true]
        refine ⟨hlen, hmap, ?_, ?_⟩
        · rw [clipped_exists_append, hn2]
          simpa using hclip
        · simpa using Best_append_farther E g mp parts v _ _ _ _ hbest hit facet _ hn1 hcl

theorem model_parts_append (vs : List ModelVolume) (v : ModelVolume) :
    model_parts (vs ++ [v]) =
      if v.is_model_part then model_parts vs ++ [v] else model_parts vs := by
  cases h : v.is_model_part <;> simp [model_parts, List.filter_append, h]

theorem RayInv_foldl (E : Scene) (g : GLGizmoPainterBase) (mp : Vec2d)
    (vs : List ModelVolume) :
    RayInv E g mp (model_parts vs) (vs.foldl (cast_ray_on_volume E g mp) RayCast.init) := by
  induction vs using List.reverseRecOn with
  | nil => exact RayInv_init E g mp
  | append_singleton vs v ih =>
    rw [List.foldl_append, model_parts_append]
    cases hv : v.is_model_part with
    | true => simpa using RayInv_step E g mp _ _ v hv ih
    | false => simpa [cast_ray_on_volume, hv] using ih

theorem cast_rays_inv (E : Scene) (g : GLGizmoPainterBase) (mp : Vec2d) :
    RayInv E g mp (model_parts E.volumes) (cast_rays E g mp) :=
  RayInv_foldl E g mp E.volumes

/-! ## Properties of the loop over the seed positions -/

theorem is_mesh_point_clipped_congr (E : Scene) (g g' : GLGizmoPainterBase)
    (h : g.clipper_position = g'.clipper_position) :
    is_mesh_point_clipped E g = is_mesh_point_clipped E g' := by
  funext p
  simp [is_mesh_point_clipped, h]

theorem cast_rays_congr (E : Scene) (g g' : GLGizmoPainterBase) (mp : Vec2d)
    (h : g.clipper_position = g'.clipper_position) :
    cast_rays E g mp = cast_rays E g' mp := by
  have : cast_ray_on_volume E g mp = cast_ray_on_volume E g' mp := by
    funext r mv
    simp [cast_ray_on_volume, is_mesh_point_clipped_congr E g g' h]
  simp [cast_rays, this]

theorem hits_congr (E : Scene) (g g' : GLGizmoPainterBase)
    (h : g.clipper_position = g'.clipper_position) : hits E g = hits E g' := by
  funext mp
  simp [hits, cast_rays_congr E g g' mp h]

theorem select_patch_call_congr (E : Scene) (g g' : GLGizmoPainterBase)
    (st : EnforcerBlockerType) (r : RayCast) (h : g.m_cursor_radius = g'.m_cursor_radius) :
    select_patch_call E g st r = select_patch_call E g' st r := by
  simp [select_patch_call, h]


theorem paint_cons_miss (E : Scene) (action : SLAGizmoEventType) (mouse_position : Vec2d)
    (st : EnforcerBlockerType) (mp : Vec2d) (rest : List Vec2d) (g : GLGizmoPainterBase)
    (h : (cast_rays E g mp).closest_hit_mesh_id = -1) :
    paint E action mouse_position st (mp :: rest) g =
      ((cast_rays E g mp).clipped_mesh_was_hit ||
          (decide (action = SLAGizmoEventType.Dragging) &&
            decide (g.m_button_down ≠ Button.None)),
        if (cast_rays E g mp).clipped_mesh_was_hit then capture_button action g else g) := by
  simp [paint, h, capture_button]

theorem paint_cons_hit (E : Scene) (action : SLAGizmoEventType) (mouse_position : Vec2d)
    (st : EnforcerBlockerType) (mp : Vec2d) (rest : List Vec2d) (g : GLGizmoPainterBase)
    (h : (cast_rays E g mp).closest_hit_mesh_id ≠ -1) :
    paint E action mouse_position st (mp :: rest) g =
      paint E action mouse_position st rest
        { capture_button action g with
          log := g.log ++ [select_patch_call E g st (cast_rays E g mp)]
          m_last_mouse_position := mouse_position } := by
  by_cases hb : g.m_button_down = Button.None <;>
    simp [paint, h, capture_button, hb, GLGizmoPainterBase.emit, select_patch_call]

/-- The gizmo after `paint` differs from the one before only in `m_button_down`,
`m_last_mouse_position` and the log, which grows by one `select_patch` call for each
seed position up to the first one without an unclipped hit. -/
theorem paint_log (E : Scene) (action : SLAGizmoEventType) (mouse_position : Vec2d)
    (st : EnforcerBlockerType) (ps : List Vec2d) (g : GLGizmoPainterBase) :
    (paint E action mouse_position st ps g).2.log =
        g.log ++ (ps.takeWhile (hits E g)).map
          (fun mp => select_patch_call E g st (cast_rays E g mp)) ∧
      (paint E action mouse_position st ps g).2.m_cursor_radius = g.m_cursor_radius ∧
      (paint E action mouse_position st ps g).2.clipper_position = g.clipper_position ∧
      (paint E action mouse_position st ps g).2.m_triangle_selectors = g.m_triangle_selectors ∧
      (paint E action mouse_position st ps g).2.m_internal_stack_active =
        g.m_internal_stack_active ∧
      (paint E action mouse_position st ps g).2.painter_type = g.painter_type := by
  induction ps generalizing g with
  | nil => simp [paint]
  | cons mp rest ih =>
    by_cases hh : (cast_rays E g mp).closest_hit_mesh_id = -1
    · have hhit : hits E g mp = false := by simp [hits, hh]
      rw [paint_cons_miss E action mouse_position st mp rest g hh]
      simp only [List.takeWhile_cons, hhit]
      by_cases hc : (cast_rays E g mp).clipped_mesh_was_hit = true <;>
        by_cases hb : g.m_button_down = Button.None <;> simp [hc, hb, capture_button]
    · have hhit : hits E g mp = true := by simp [hits, hh]
      rw [paint_cons_hit E action mouse_position st mp rest g hh]
      have hcl : ∀ g2 : GLGizmoPainterBase, g2.clipper_position = g.clipper_position →
          g2.m_cursor_radius = g.m_cursor_radius →
          (rest.takeWhile (hits E g2)).map
              (fun mp => select_patch_call E g2 st (cast_rays E g2 mp)) =
            (rest.takeWhile (hits E g)).map
              (fun mp => select_patch_call E g st (cast_rays E g mp)) := by
        intro g2 h1 h2
        rw [hits_congr E g2 g h1]
        refine List.map_congr_left ?_
        intro a _
        rw [cast_rays_congr E g2 g a h1, select_patch_call_congr E g2 g st _ h2]
      have hcap : (capture_button action g).clipper_position = g.clipper_position ∧
          (capture_button action g).m_cursor_radius = g.m_cursor_radius ∧
          (capture_button action g).m_triangle_selectors = g.m_triangle_selectors ∧
          (capture_button action g).m_internal_stack_active = g.m_internal_stack_active ∧
          (capture_button action g).painter_type = g.painter_type := by
        by_cases hb : g.m_button_down = Button.None <;> simp [capture_button, hb]
      obtain ⟨c1, c2, c3, c4, c5⟩ := hcap
      generalize hg2 : ({ capture_button action g with
          log := g.log ++ [select_patch_call E g st (cast_rays E g mp)]
          m_last_mouse_position := mouse_position } : GLGizmoPainterBase) = g2
      have e1 : g2.clipper_position = g.clipper_position := by rw [← hg2]; exact c1
      have e2 : g2.m_cursor_radius = g.m_cursor_radius := by rw [← hg2]; exact c2
      have e3 : g2.m_triangle_selectors = g.m_triangle_selectors := by rw [← hg2]; exact c3
      have e4 : g2.m_internal_stack_active = g.m_internal_stack_active := by
        rw [← hg2]; exact c4
      have e5 : g2.painter_type = g.painter_type := by rw [← hg2]; exact c5
      have e6 : g2.log = g.log ++ [select_patch_call E g st (cast_rays E g mp)] := by
        rw [← hg2]
      obtain ⟨i1, i2, i3, i4, i5, i6⟩ := ih g2
      refine ⟨?_, ?_, ?_, ?_, ?_, ?_⟩
      · rw [i1, hcl g2 e1 e2, e6]
        simp [List.takeWhile_cons, hhit]
      · rw [i2]; exact e2
      · rw [i3]; exact e1
      · rw [i4]; exact e3
      · rw [i5]; exact e4
      · rw [i6]; exact e5

theorem find_mesh_id_eq (c : Int) (vs : List ModelVolume) :
    ∀ m : Int, m < c → c - m - 1 < ((model_parts vs).length : Int) →
      find_mesh_id c vs m = c := by
  induction vs with
  | nil =>
    intro m h1 h2
    simp [model_parts] at h2
    omega
  | cons v vs ih =>
    intro m h1 h2
    cases hv : v.is_model_part with
    | false =>
      have : model_parts (v :: vs) = model_parts vs := by simp [model_parts, hv]
      rw [this] at h2
      simpa [find_mesh_id, hv] using ih m h1 h2
    | true =>
      have : model_parts (v :: vs) = v :: model_parts vs := by simp [model_parts, hv]
      rw [this] at h2
      by_cases hc : m + 1 = c
      · simp [find_mesh_id, hv, hc]
      · have := ih (m + 1) (by omega) (by simp at h2; omega)
        simpa [find_mesh_id, hv, hc] using this

theorem trafo_at_map (E : Scene) (parts : List ModelVolume) (k : Nat) (mv : ModelVolume)
    (h : parts[k]? = some mv) :
    trafo_at (parts.map (mesh_trafo E)) (k : Int) = mesh_trafo E mv := by
  simp [trafo_at, List.getD_eq_getElem?_getD, h]

/-- The call issued at a seed position with an unclipped hit: it addresses the mesh
whose unclipped hit is closest to the camera, the lowest mesh id winning a tie. -/
theorem select_patch_call_of_hit (E : Scene) (g : GLGizmoPainterBase)
    (st : EnforcerBlockerType) (mp : Vec2d)
    (h : (cast_rays E g mp).closest_hit_mesh_id ≠ -1) :
    ∃ (k : Nat) (mv : ModelVolume) (hit : Vec3f) (facet : Nat) (d : ℚ),
      (cast_rays E g mp).closest_hit_mesh_id = (k : Int) ∧
      (model_parts E.volumes)[k]? = some mv ∧
      unclipped_hit E g mp (model_parts E.volumes) k = some (hit, facet, d) ∧
      (∀ j x, unclipped_hit E g mp (model_parts E.volumes) j = some x →
        d ≤ x.2.2 ∧ (j < k → d < x.2.2)) ∧
      select_patch_call E g st (cast_rays E g mp) =
        Effect.select_patch (k : Int) hit facet
          (E.trafo_apply (E.trafo_inverse (mesh_trafo E mv)) E.camera_position)
          (E.normalized
            (hit - E.trafo_apply (E.trafo_inverse (mesh_trafo E mv)) E.camera_position))
          (g.m_cursor_radius /
            (((E.get_scaling_factor (mesh_trafo E mv)).x +
              (E.get_scaling_factor (mesh_trafo E mv)).y +
              (E.get_scaling_factor (mesh_trafo E mv)).z) / 3))
          st := by
  obtain ⟨_, htr, _, hbest⟩ := cast_rays_inv E g mp
  rcases hbest with ⟨h1, _, _⟩ | ⟨k, d, h1, h2, h3, h4⟩
  · exact absurd h1 h
  · have hklt := unclipped_hit_lt E g mp _ k _ h2
    have hmv : (model_parts E.volumes)[k]? = some ((model_parts E.volumes)[k]) :=
      List.getElem?_eq_getElem hklt
    refine ⟨k, _, _, _, d, h1, hmv, h2, h4, ?_⟩
    have hfind : find_mesh_id (k : Int) E.volumes (-1) = (k : Int) :=
      find_mesh_id_eq (k : Int) E.volumes (-1) (by omega) (by omega)
    simp only [select_patch_call, h1, hfind, htr, trafo_at_map E _ k _ hmv]

theorem hit_iff_unclipped (E : Scene) (g : GLGizmoPainterBase) (mp : Vec2d) :
    (cast_rays E g mp).closest_hit_mesh_id = -1 ↔
      ∀ k, unclipped_hit E g mp (model_parts E.volumes) k = none := by
  obtain ⟨_, _, _, hbest⟩ := cast_rays_inv E g mp
  rcases hbest with ⟨h1, _, h3⟩ | ⟨k, d, h1, h2, _, _⟩
  · exact ⟨fun _ => h3, fun _ => h1⟩
  · constructor
    · intro h
      rw [h1] at h
      omega
    · intro h
      rw [h k] at h2
      simp at h2

theorem unclipped_hit_some (E : Scene) (g : GLGizmoPainterBase) (mp : Vec2d)
    (parts : List ModelVolume) (k : Nat) (hit : Vec3f) (facet : Nat) (d : ℚ)
    (h : unclipped_hit E g mp parts k = some (hit, facet, d)) :
    ∃ mv, parts[k]? = some mv ∧
      E.unproject_on_mesh (k : Int) mp (mesh_trafo E mv) = some (hit, facet) ∧
      is_mesh_point_clipped E g hit = false ∧
      d = (E.camera_position - E.trafo_apply (mesh_trafo E mv) hit).squaredNorm := by
  unfold unclipped_hit at h
  cases hp : parts[k]? with
  | none => simp [hp] at h
  | some mv =>
    simp only [hp] at h
    cases hu : E.unproject_on_mesh (k : Int) mp (mesh_trafo E mv) with
    | none => simp [hu] at h
    | some hf =>
      obtain ⟨hit1, facet1⟩ := hf
      simp only [hu] at h
      cases hc : is_mesh_point_clipped E g hit1 with
      | true => simp [hc] at h
      | false =>
        simp only [hc, Bool.false_eq_true, if_false, Option.some.injEq, Prod.mk.injEq] at h
        obtain ⟨rfl, rfl, e3⟩ := h
        exact ⟨mv, rfl, hu, hc, e3.symm⟩

theorem activate_true_log (g : GLGizmoPainterBase) :
    (activate_internal_undo_redo_stack true g).log =
      g.log ++ (if g.m_internal_stack_active then []
        else [Effect.TakeSnapshot
          (if g.painter_type = PainterGizmoType.FDM_SUPPORTS
            then "Supports gizmo turned on" else "Seam gizmo turned on"),
          Effect.enter_gizmos_stack]) := by
  cases h : g.m_internal_stack_active with
  | true => rw [activate_eq_of_flag true g h]; simp
  | false => rw [activate_true_of_inactive g h]; simp

theorem activate_true_fields (g : GLGizmoPainterBase) :
    (activate_internal_undo_redo_stack true g).m_button_down = g.m_button_down ∧
    (activate_internal_undo_redo_stack true g).m_cursor_radius = g.m_cursor_radius ∧
    (activate_internal_undo_redo_stack true g).m_last_mouse_position =
      g.m_last_mouse_position ∧
    (activate_internal_undo_redo_stack true g).m_triangle_selectors =
      g.m_triangle_selectors ∧
    (activate_internal_undo_redo_stack true g).clipper_position = g.clipper_position ∧
    (activate_internal_undo_redo_stack true g).painter_type = g.painter_type := by
  cases h : g.m_internal_stack_active with
  | true => rw [activate_eq_of_flag true g h]; simp
  | false => rw [activate_true_of_inactive g h]; simp

theorem paint_event_calls (E : Scene) (action : SLAGizmoEventType) (mouse_position : Vec2d)
    (shift_down : Bool) (g : GLGizmoPainterBase) :
    (paint_event E action mouse_position shift_down g).2.log =
      g.log ++
        (if g.m_triangle_selectors = 0 then []
         else ((mouse_positions E g mouse_position).takeWhile (hits E g)).map
          (fun p => select_patch_call E g (new_state action g.m_button_down shift_down)
            (cast_rays E g p))) := by
  unfold paint_event
  by_cases h0 : g.m_triangle_selectors = 0
  · simp [h0]
  · simp only [h0, if_false]
    rw [(paint_log E action mouse_position _ _ _).1]
    have h1 : ({ g with m_last_mouse_position := Vec2d.Zero } : GLGizmoPainterBase).clipper_position
        = g.clipper_position := rfl
    have h2 : ({ g with m_last_mouse_position := Vec2d.Zero } : GLGizmoPainterBase).m_cursor_radius
        = g.m_cursor_radius := rfl
    rw [hits_congr E _ g h1]
    congr 1

/-- Every call that `gizmo_event` makes is appended to the log, and each `select_patch`
among them is the one of a seed position with an unclipped hit, with the state chosen
in lines 219-229. -/
theorem gizmo_event_calls (E : Scene) (action : SLAGizmoEventType) (mouse_position : Vec2d)
    (shift_down alt_down control_down : Bool) (g : GLGizmoPainterBase) :
    ∃ calls : List Effect,
      (gizmo_event E action mouse_position shift_down alt_down control_down g).2.log =
        g.log ++ calls ∧
      ∀ e ∈ calls, is_select_patch e = true →
        ∃ p ∈ mouse_positions E g mouse_position,
          (cast_rays E g p).closest_hit_mesh_id ≠ -1 ∧
          e = select_patch_call E g (new_state action g.m_button_down shift_down)
            (cast_rays E g p) := by
  have hpaint : ∃ calls : List Effect,
      (paint_event E action mouse_position shift_down g).2.log = g.log ++ calls ∧
      ∀ e ∈ calls, is_select_patch e = true →
        ∃ p ∈ mouse_positions E g mouse_position,
          (cast_rays E g p).closest_hit_mesh_id ≠ -1 ∧
          e = select_patch_call E g (new_state action g.m_button_down shift_down)
            (cast_rays E g p) := by
    refine ⟨_, paint_event_calls E action mouse_position shift_down g, ?_⟩
    intro e he _
    by_cases h0 : g.m_triangle_selectors = 0
    · simp [h0] at he
    · simp only [h0, if_false, List.mem_map] at he
      obtain ⟨p, hp, rfl⟩ := he
      refine ⟨p, List.takeWhile_subset _ hp, ?_, rfl⟩
      have := List.mem_takeWhile_imp hp
      simpa [hits] using this
  have hcommit : ∃ calls : List Effect,
      (commit_stroke shift_down g).2.log = g.log ++ calls ∧
      ∀ e ∈ calls, is_select_patch e = false := by
    refine ⟨(if g.m_internal_stack_active then []
        else [Effect.TakeSnapshot
          (if g.painter_type = PainterGizmoType.FDM_SUPPORTS
            then "Supports gizmo turned on" else "Seam gizmo turned on"),
          Effect.enter_gizmos_stack]) ++
        [Effect.TakeSnapshot (action_name g shift_down), Effect.update_model_object], ?_, ?_⟩
    · simp [commit_stroke, GLGizmoPainterBase.emit, activate_true_log]
    · intro e he
      cases h : g.m_internal_stack_active <;> simp [h] at he <;>
        rcases he with rfl | rfl | rfl | rfl <;> rfl
  have hnone : ∀ l : List Effect, (∀ e ∈ l, is_select_patch e = false) →
      ∀ e ∈ l, is_select_patch e = true →
        ∃ p ∈ mouse_positions E g mouse_position,
          (cast_rays E g p).closest_hit_mesh_id ≠ -1 ∧
          e = select_patch_call E g (new_state action g.m_button_down shift_down)
            (cast_rays E g p) := by
    intro l hl e he ht
    rw [hl e he] at ht
    simp at ht
  have hafter : ∃ calls : List Effect,
      (gizmo_event_after_wheel E action mouse_position shift_down g).2.log =
        g.log ++ calls ∧
      ∀ e ∈ calls, is_select_patch e = true →
        ∃ p ∈ mouse_positions E g mouse_position,
          (cast_rays E g p).closest_hit_mesh_id ≠ -1 ∧
          e = select_patch_call E g (new_state action g.m_button_down shift_down)
            (cast_rays E g p) := by
    unfold gizmo_event_after_wheel
    split_ifs
    · refine ⟨[Effect.set_position (-1) false], by simp [set_position,
        GLGizmoPainterBase.emit], hnone _ ?_⟩
      intro e he
      simp at he
      subst he
      rfl
    · exact hpaint
    · obtain ⟨calls, h1, h2⟩ := hcommit
      exact ⟨calls, h1, hnone _ h2⟩
    · exact ⟨[], by simp, by simp⟩
  unfold gizmo_event
  by_cases hw : action = SLAGizmoEventType.MouseWheelUp ∨
      action = SLAGizmoEventType.MouseWheelDown
  · simp only [hw, if_true]
    by_cases hc : control_down = true
    · simp only [hc, if_true]
      refine ⟨[Effect.set_position (if action = SLAGizmoEventType.MouseWheelDown
        then max 0 (g.clipper_position - 1 / 100)
        else min 1 (g.clipper_position + 1 / 100)) true], by simp [set_position,
        GLGizmoPainterBase.emit], hnone _ ?_⟩
      intro e he
      simp only [List.mem_singleton] at he
      subst he
      rfl
    · simp only [hc, if_false]
      by_cases ha : alt_down = true
      · simp only [ha, if_true]
        refine ⟨[Effect.set_as_dirty], by simp [GLGizmoPainterBase.emit], hnone _ ?_⟩
        intro e he
        simp only [List.mem_singleton] at he
        subst he
        rfl
      · simp only [ha, if_false]
        exact hafter
  · simp only [hw, if_false]
    exact hafter

/-! ## Properties of the seed positions -/

theorem Vec2d.add_def (a b : Vec2d) : a + b = ⟨a.x + b.x, a.y + b.y⟩ := rfl
theorem Vec2d.sub_def (a b : Vec2d) : a - b = ⟨a.x - b.x, a.y - b.y⟩ := rfl
theorem Vec2d.smul_def (k : ℚ) (a : Vec2d) : k * a = ⟨k * a.x, k * a.y⟩ := rfl
theorem Vec2d.div_def (a : Vec2d) (k : ℚ) : a / k = ⟨a.x / k, a.y / k⟩ := rfl

theorem Vec2d.sub_self_eq (a : Vec2d) : a - a = Vec2d.Zero := by
  simp [Vec2d.sub_def, Vec2d.Zero]

theorem double_to_int_of_nonneg (x : ℚ) (h : 0 ≤ x) : double_to_int x = ⌊x⌋ := by
  simp [double_to_int, h]

theorem double_to_int_of_nonpos (x : ℚ) (h : x ≤ 0) : double_to_int x ≤ 0 := by
  unfold double_to_int
  split_ifs with h0
  · have : x = 0 := le_antisymm h h0
    simp [this]
  · exact Int.ceil_le.mpr (by simpa using h)

theorem double_to_int_pos (x : ℚ) (h : 0 < double_to_int x) :
    double_to_int x = ⌊x⌋ ∧ 1 ≤ x := by
  have hx : 0 < x := by
    by_contra hle
    have := double_to_int_of_nonpos x (not_lt.mp hle)
    omega
  have e := double_to_int_of_nonneg x hx.le
  refine ⟨e, ?_⟩
  rw [e] at h
  have h1 : (1 : ℤ) ≤ ⌊x⌋ := h
  have := Int.le_floor.mp h1
  simpa using this

theorem mouse_positions_of_patches_le (E : Scene) (g : GLGizmoPainterBase) (c : Vec2d)
    (h : patches_in_between E g c ≤ 0) : mouse_positions E g c = [c] := by
  simp [mouse_positions, not_lt.mpr h]

theorem mouse_positions_of_patches_pos (E : Scene) (g : GLGizmoPainterBase) (c : Vec2d)
    (h : 0 < patches_in_between E g c) :
    mouse_positions E g c = c :: (List.range (patches_in_between E g c).toNat).map
      (fun (k : ℕ) => last_mouse_position g c +
        (((k : ℚ) + 1) * (c - last_mouse_position g c)) /
          (((patches_in_between E g c).toNat : ℚ) + 1)) := by
  have hn : (((patches_in_between E g c).toNat : ℤ)) = patches_in_between E g c :=
    Int.toNat_of_nonneg h.le
  have hq : ((patches_in_between E g c : ℤ) : ℚ) =
      (((patches_in_between E g c).toNat : ℕ) : ℚ) := by
    exact_mod_cast hn.symm
  simp only [mouse_positions, h, if_true, List.singleton_append, List.cons.injEq, true_and]
  refine List.map_congr_left ?_
  intro k _
  simp only [Vec2d.add_def, Vec2d.sub_def, Vec2d.smul_def, Vec2d.div_def, Vec2d.mk.injEq]
  push_cast
  rw [hq]
  constructor <;> ring

theorem new_state_none_iff (action : SLAGizmoEventType) (b : Button) (shift_down : Bool) :
    new_state action b shift_down = EnforcerBlockerType.NONE ↔ shift_down = true := by
  cases action <;> cases b <;> cases shift_down <;> simp [new_state]

theorem new_state_enforcer_iff (action : SLAGizmoEventType) (b : Button) :
    new_state action b false = EnforcerBlockerType.ENFORCER ↔
      (action = SLAGizmoEventType.LeftDown ∨
        (action = SLAGizmoEventType.Dragging ∧ b = Button.Left)) := by
  cases action <;> cases b <;> simp [new_state]

theorem new_state_blocker (action : SLAGizmoEventType) (b : Button)
    (h : ¬(action = SLAGizmoEventType.LeftDown ∨
        (action = SLAGizmoEventType.Dragging ∧ b = Button.Left))) :
    new_state action b false = EnforcerBlockerType.BLOCKER := by
  cases action <;> cases b <;> simp_all [new_state]

/-- C4: every `select_patch` call of an event carries the state chosen in lines 219-229
from the action, the button held when the event arrived and the shift key: it is `NONE`
exactly when shift is down; without shift it is `ENFORCER` exactly when the action is
`LeftDown`, or `Dragging` with the left button held, and `BLOCKER` otherwise; and for
a press or a drag the alt and control keys change nothing of what the event does. -/
theorem select_patch_state (E : Scene) (action : SLAGizmoEventType) (mouse_position : Vec2d)
    (shift_down alt_down control_down : Bool) (g : GLGizmoPainterBase) :
    (∃ calls : List Effect,
      (gizmo_event E action mouse_position shift_down alt_down control_down g).2.log =
        g.log ++ calls ∧
      ∀ id hit facet source dir limit st,
        Effect.select_patch id hit facet source dir limit st ∈ calls →
          st = new_state action g.m_button_down shift_down) ∧
    (new_state action g.m_button_down shift_down = EnforcerBlockerType.NONE ↔
      shift_down = true) ∧
    (shift_down = false →
      (new_state action g.m_button_down shift_down = EnforcerBlockerType.ENFORCER ↔
        (action = SLAGizmoEventType.LeftDown ∨
          (action = SLAGizmoEventType.Dragging ∧ g.m_button_down = Button.Left)))) ∧
    (shift_down = false →
      ¬(action = SLAGizmoEventType.LeftDown ∨
          (action = SLAGizmoEventType.Dragging ∧ g.m_button_down = Button.Left)) →
      new_state action g.m_button_down shift_down = EnforcerBlockerType.BLOCKER) ∧
    ((action = SLAGizmoEventType.LeftDown ∨ action = SLAGizmoEventType.RightDown ∨
        action = SLAGizmoEventType.Dragging) →
      ∀ alt ctl : Bool,
        gizmo_event E action mouse_position shift_down alt ctl g =
          gizmo_event E action mouse_position shift_down alt_down control_down g) := by
  refine ⟨?_, new_state_none_iff _ _ _, ?_, ?_, ?_⟩
  · obtain ⟨calls, h1, h2⟩ :=
      gizmo_event_calls E action mouse_position shift_down alt_down control_down g
    refine ⟨calls, h1, ?_⟩
    intro id hit facet source dir limit st hmem
    obtain ⟨p, _, _, he⟩ := h2 _ hmem rfl
    simp only [select_patch_call, Effect.select_patch.injEq] at he
    exact he.2.2.2.2.2.2
  · intro hs
    subst hs
    exact new_state_enforcer_iff _ _
  · intro hs h
    subst hs
    exact new_state_blocker _ _ h
  · intro ha alt ctl
    have hw : ¬(action = SLAGizmoEventType.MouseWheelUp ∨
        action = SLAGizmoEventType.MouseWheelDown) := by
      rcases ha with rfl | rfl | rfl <;> simp
    simp [gizmo_event, hw]

/-- C5: every `select_patch` call of an event addresses a model-part mesh `k` of the
object, and its radius argument is `m_cursor_radius / ((sx + sy + sz) / 3)` for the
scaling factors `(sx, sy, sz)` of that mesh's transformation, the instance
transformation times the volume matrix; so it is `m_cursor_radius / s` under a uniform
scale `s > 0` and `m_cursor_radius` for an unscaled mesh. -/
theorem select_patch_radius (E : Scene) (action : SLAGizmoEventType) (mouse_position : Vec2d)
    (shift_down alt_down control_down : Bool) (g : GLGizmoPainterBase) :
    ∃ calls : List Effect,
      (gizmo_event E action mouse_position shift_down alt_down control_down g).2.log =
        g.log ++ calls ∧
      ∀ id hit facet source dir limit st,
        Effect.select_patch id hit facet source dir limit st ∈ calls →
          ∃ (k : ℕ) (mv : ModelVolume),
            id = (k : Int) ∧ (model_parts E.volumes)[k]? = some mv ∧
            limit = g.m_cursor_radius /
              (((E.get_scaling_factor (E.trafo_mul E.instance_trafo mv.get_matrix)).x +
                (E.get_scaling_factor (E.trafo_mul E.instance_trafo mv.get_matrix)).y +
                (E.get_scaling_factor (E.trafo_mul E.instance_trafo mv.get_matrix)).z) / 3) ∧
            (∀ s : ℚ, 0 < s →
              E.get_scaling_factor (E.trafo_mul E.instance_trafo mv.get_matrix) = ⟨s, s, s⟩ →
              limit = g.m_cursor_radius / s) ∧
            (E.get_scaling_factor (E.trafo_mul E.instance_trafo mv.get_matrix) = ⟨1, 1, 1⟩ →
              limit = g.m_cursor_radius) := by
  obtain ⟨calls, h1, h2⟩ :=
    gizmo_event_calls E action mouse_position shift_down alt_down control_down g
  refine ⟨calls, h1, ?_⟩
  intro id hit facet source dir limit st hmem
  obtain ⟨p, _, hne, he⟩ := h2 _ hmem rfl
  obtain ⟨k, mv, hit1, facet1, d, _, hmv, _, _, hcall⟩ :=
    select_patch_call_of_hit E g (new_state action g.m_button_down shift_down) p hne
  rw [hcall] at he
  simp only [Effect.select_patch.injEq] at he
  obtain ⟨e1, _, _, _, _, e6, _⟩ := he
  have hlim : limit = g.m_cursor_radius /
      (((E.get_scaling_factor (E.trafo_mul E.instance_trafo mv.get_matrix)).x +
        (E.get_scaling_factor (E.trafo_mul E.instance_trafo mv.get_matrix)).y +
        (E.get_scaling_factor (E.trafo_mul E.instance_trafo mv.get_matrix)).z) / 3) := e6
  refine ⟨k, mv, e1, hmv, hlim, ?_, ?_⟩
  · intro s hs hsf
    rw [hlim, hsf]
    have : (s + s + s) / 3 = s := by ring
    simp only [this]
  · intro hsf
    rw [hlim, hsf]
    norm_num

/-- C7: a `LeftUp` or `RightUp` that arrives while a button is held commits the
stroke: the internal undo/redo stack is activated (a snapshot and `enter_gizmos_stack`
when it was not active, nothing when it was), then the snapshot of the stroke is taken,
then `update_model_object` is called; afterwards `m_button_down` is `None`,
`m_last_mouse_position` is zero, and the event returns true.  When no button is held
the event returns false and leaves the gizmo, log included, as it was. -/
theorem button_up_commits_stroke (E : Scene) (action : SLAGizmoEventType)
    (mouse_position : Vec2d) (shift_down alt_down control_down : Bool)
    (g : GLGizmoPainterBase)
    (h : action = SLAGizmoEventType.LeftUp ∨ action = SLAGizmoEventType.RightUp) :
    (g.m_button_down ≠ Button.None →
      (gizmo_event E action mouse_position shift_down alt_down control_down g).1 = true ∧
      (gizmo_event E action mouse_position shift_down alt_down control_down g).2.log =
        g.log ++
          (if g.m_internal_stack_active then []
            else [Effect.TakeSnapshot
              (if g.painter_type = PainterGizmoType.FDM_SUPPORTS
                then "Supports gizmo turned on" else "Seam gizmo turned on"),
              Effect.enter_gizmos_stack]) ++
          [Effect.TakeSnapshot (action_name g shift_down), Effect.update_model_object] ∧
      (gizmo_event E action mouse_position shift_down alt_down control_down
        g).2.m_internal_stack_active = true ∧
      (gizmo_event E action mouse_position shift_down alt_down control_down
        g).2.m_button_down = Button.None ∧
      (gizmo_event E action mouse_position shift_down alt_down control_down
        g).2.m_last_mouse_position = Vec2d.Zero ∧
      (gizmo_event E action mouse_position shift_down alt_down control_down
        g).2.m_cursor_radius = g.m_cursor_radius ∧
      (gizmo_event E action mouse_position shift_down alt_down control_down
        g).2.clipper_position = g.clipper_position ∧
      (gizmo_event E action mouse_position shift_down alt_down control_down
        g).2.m_triangle_selectors = g.m_triangle_selectors) ∧
    (g.m_button_down = Button.None →
      gizmo_event E action mouse_position shift_down alt_down control_down g = (false, g)) := by
  have hev : gizmo_event E action mouse_position shift_down alt_down control_down g =
      if g.m_button_down ≠ Button.None then commit_stroke shift_down g else (false, g) := by
    rcases h with rfl | rfl <;> simp [gizmo_event, gizmo_event_after_wheel]
  constructor
  · intro hb
    rw [hev, if_pos hb]
    obtain ⟨f1, f2, f3, f4, f5, f6⟩ := activate_true_fields g
    refine ⟨rfl, ?_, ?_, rfl, rfl, ?_, ?_, ?_⟩
    · simp [commit_stroke, GLGizmoPainterBase.emit, activate_true_log]
    · simp [commit_stroke, GLGizmoPainterBase.emit, activate_flag]
    · simpa [commit_stroke, GLGizmoPainterBase.emit] using f2
    · simpa [commit_stroke, GLGizmoPainterBase.emit] using f5
    · simpa [commit_stroke, GLGizmoPainterBase.emit] using f4
  · intro hb
    rw [hev]
    simp [hb]

/-! ## Properties of TriangleSelectorGUI::render -/

theorem index_triples_succ (n : Nat) :
    index_triples (n + 1) =
      index_triples n ++ [((3 * n : Int), (3 * n + 1 : Int), (3 * n + 2 : Int))] := by
  simp [index_triples, List.range_succ]

theorem drawn_append (st : EnforcerBlockerType) (pre : List Triangle) (tr : Triangle) :
    drawn st (pre ++ [tr]) =
      if tr.valid && !tr.is_split && decide (tr.get_state = st) then drawn st pre ++ [tr]
      else drawn st pre := by
  by_cases h : (tr.valid && !tr.is_split && decide (tr.get_state = st)) = true
  · simp only [drawn, List.filter_append, h, if_true]
    simp [List.filter, h]
  · simp only [drawn, List.filter_append, h, if_false]
    simp [List.filter, h]

theorem RenderInv_step (m_vertices : List Vec3f) (pre : List Triangle) (st : RenderLoop)
    (tr : Triangle) (h : RenderInv m_vertices pre st) :
    RenderInv m_vertices (pre ++ [tr]) (render_triangle m_vertices st tr) := by
  obtain ⟨h1, h2, h3, h4, h5, h6⟩ := h
  unfold RenderInv
  rw [drawn_append, drawn_append]
  cases hv : tr.valid <;> cases hs : tr.is_split <;> cases hst : tr.get_state <;>
    simp [render_triangle, hv, hs, hst, h1, h2, h3, h4, h5, h6, push_triangle_geometry,
      GLIndexedVertexArray.push_geometry, GLIndexedVertexArray.push_triangle,
      index_triples_succ, triangle_geometry, List.flatMap_append, mul_add]

theorem RenderInv_foldl (m_vertices : List Vec3f) (tris : List Triangle)
    (e b : GLIndexedVertexArray) :
    RenderInv m_vertices tris
      (tris.foldl (render_triangle m_vertices)
        { enf_cnt := 0, blc_cnt := 0, m_iva_enforcers := e.release_geometry,
          m_iva_blockers := b.release_geometry }) := by
  induction tris using List.reverseRecOn with
  | nil =>
    simp [RenderInv, drawn, index_triples, GLIndexedVertexArray.release_geometry]
  | append_singleton pre tr ih =>
    rw [List.foldl_append]
    exact RenderInv_step m_vertices pre _ tr ih

/-- C6: `render` fills the enforcer buffer from exactly the triangles of the arena that
are valid, not split and in state `ENFORCER`, and the blocker buffer from exactly those
that are valid, not split and in state `BLOCKER`, each in arena order: the `k`-th
triangle pushed to a buffer contributes its three vertex positions and the index triple
`(3k, 3k+1, 3k+2)`.  A triangle that is invalid, split or in state `NONE` is in neither
selection, so it contributes to neither buffer; the arena itself is left as it was. -/
theorem render_partitions_by_state (s : TriangleSelectorGUI) :
    (s.render.m_iva_enforcers.geometry =
        (drawn EnforcerBlockerType.ENFORCER s.m_triangles).flatMap
          (triangle_geometry s.m_vertices) ∧
      s.render.m_iva_enforcers.triangles =
        (List.range (drawn EnforcerBlockerType.ENFORCER s.m_triangles).length).map
          (fun k => ((3 * k : Int), (3 * k + 1 : Int), (3 * k + 2 : Int)))) ∧
    (s.render.m_iva_blockers.geometry =
        (drawn EnforcerBlockerType.BLOCKER s.m_triangles).flatMap
          (triangle_geometry s.m_vertices) ∧
      s.render.m_iva_blockers.triangles =
        (List.range (drawn EnforcerBlockerType.BLOCKER s.m_triangles).length).map
          (fun k => ((3 * k : Int), (3 * k + 1 : Int), (3 * k + 2 : Int)))) ∧
    (∀ (st : EnforcerBlockerType) (tr : Triangle),
      tr ∈ drawn st s.m_triangles ↔
        tr ∈ s.m_triangles ∧ tr.valid = true ∧ tr.is_split = false ∧ tr.get_state = st) ∧
    (∀ tr : Triangle,
      (tr.valid = false ∨ tr.is_split = true ∨ tr.get_state = EnforcerBlockerType.NONE) →
        tr ∉ drawn EnforcerBlockerType.ENFORCER s.m_triangles ∧
        tr ∉ drawn EnforcerBlockerType.BLOCKER s.m_triangles) ∧
    s.render.m_triangles = s.m_triangles ∧ s.render.m_vertices = s.m_vertices := by
  obtain ⟨_, _, h3, h4, h5, h6⟩ :=
    RenderInv_foldl s.m_vertices s.m_triangles s.m_iva_enforcers s.m_iva_blockers
  have hmem : ∀ (st : EnforcerBlockerType) (tr : Triangle),
      tr ∈ drawn st s.m_triangles ↔
        tr ∈ s.m_triangles ∧ tr.valid = true ∧ tr.is_split = false ∧ tr.get_state = st := by
    intro st tr
    simp [drawn, List.mem_filter, and_assoc]
  refine ⟨⟨h3, h4⟩, ⟨h5, h6⟩, hmem, ?_, rfl, rfl⟩
  intro tr h
  rw [hmem, hmem]
  rcases h with h | h | h <;> simp [h]

/-! ## The properties at the concrete scene -/

theorem stroke_last_ne_zero : stroke_gizmo.m_last_mouse_position ≠ Vec2d.Zero := by decide!

theorem stroke_positions_length :
    1 < (mouse_positions gap_scene stroke_gizmo ⟨60, 0⟩).length := by decide!

/-- Witness of C7 at `gap_scene` and `stroke_gizmo`: releasing the left button commits
the stroke, activating the stack first. -/
theorem button_up_commits_stroke_witness :
    (SLAGizmoEventType.LeftUp = SLAGizmoEventType.LeftUp ∨
        SLAGizmoEventType.LeftUp = SLAGizmoEventType.RightUp) ∧
      (gizmo_event gap_scene SLAGizmoEventType.LeftUp ⟨60, 0⟩ false false false
        stroke_gizmo).2.log =
        [Effect.TakeSnapshot "Supports gizmo turned on", Effect.enter_gizmos_stack,
          Effect.TakeSnapshot "Add supports", Effect.update_model_object] := by
  have h : SLAGizmoEventType.LeftUp = SLAGizmoEventType.LeftUp ∨
      SLAGizmoEventType.LeftUp = SLAGizmoEventType.RightUp := Or.inl rfl
  have key := button_up_commits_stroke gap_scene SLAGizmoEventType.LeftUp ⟨60, 0⟩
    false false false stroke_gizmo h
  have k0 := key.1 (by decide)
  have k1 := k0.2.1
  exact ⟨h, by rw [k1]; decide⟩

/-- C2 at a drag across the gap of `gap_scene`, from `(10, 0)` to `(60, 0)` with the
left button held: of the seven seed positions six have an unclipped hit, the second
one, inside the gap, has none; `gizmo_event` issues the `select_patch` call of the
first position and returns at the second, so the five positions behind the gap are
never painted. -/
theorem stroke_stops_at_first_miss :
    (mouse_positions gap_scene stroke_gizmo ⟨60, 0⟩).map (hits gap_scene stroke_gizmo) =
        [true, false, true, true, true, true, true] ∧
      gizmo_event gap_scene SLAGizmoEventType.Dragging ⟨60, 0⟩ false false false
          stroke_gizmo =
        (true, { stroke_gizmo with
          m_last_mouse_position := ⟨60, 0⟩
          log := [Effect.select_patch 0 ⟨60, 0, 0⟩ 0 ⟨0, 0, 100⟩ ⟨60, 0, -100⟩ 10
            EnforcerBlockerType.ENFORCER] }) := by
  decide!

/-- C9 at a right press at `(60, 0)` in `gap_scene` while the left button is held and
the previous sample is `(10, 0)`: `gizmo_event` calls `select_patch` for the pressed
position, then returns false at the first intermediate position, which lies in the
gap. -/
theorem press_painted_but_returned_false :
    gizmo_event gap_scene SLAGizmoEventType.RightDown ⟨60, 0⟩ false false false
        stroke_gizmo =
      (false, { stroke_gizmo with
        m_last_mouse_position := ⟨60, 0⟩
        log := [Effect.select_patch 0 ⟨60, 0, 0⟩ 0 ⟨0, 0, 100⟩ ⟨60, 0, -100⟩ 10
          EnforcerBlockerType.BLOCKER] }) := by
  decide!

/-! ## A press that meets no unclipped hit -/

theorem mouse_positions_head (E : Scene) (g : GLGizmoPainterBase) (c : Vec2d) :
    ∃ rest : List Vec2d, mouse_positions E g c = c :: rest := by
  by_cases h : 0 < patches_in_between E g c
  · exact ⟨_, mouse_positions_of_patches_pos E g c h⟩
  · exact ⟨[], mouse_positions_of_patches_le E g c (not_lt.mp h)⟩

/-- A press whose own position has no unclipped hit ends at that position: it paints
nothing, returns whether a clipped hit was met, and captures the button only then. -/
theorem press_miss (E : Scene) (action : SLAGizmoEventType) (c : Vec2d)
    (shift_down alt_down control_down : Bool) (g : GLGizmoPainterBase)
    (ha : action = SLAGizmoEventType.LeftDown ∨ action = SLAGizmoEventType.RightDown)
    (hsel : g.m_triangle_selectors ≠ 0)
    (hun : ∀ k, unclipped_hit E g c (model_parts E.volumes) k = none) :
    gizmo_event E action c shift_down alt_down control_down g =
      ((cast_rays E g c).clipped_mesh_was_hit,
        if (cast_rays E g c).clipped_mesh_was_hit then
          capture_button action { g with m_last_mouse_position := Vec2d.Zero }
        else { g with m_last_mouse_position := Vec2d.Zero }) := by
  have hev : gizmo_event E action c shift_down alt_down control_down g =
      paint E action c (new_state action g.m_button_down shift_down)
        (mouse_positions E g c) { g with m_last_mouse_position := Vec2d.Zero } := by
    rcases ha with rfl | rfl <;>
      simp [gizmo_event, gizmo_event_after_wheel, paint_event, hsel]
  obtain ⟨rest, hrest⟩ := mouse_positions_head E g c
  have hcast : cast_rays E { g with m_last_mouse_position := Vec2d.Zero } c =
      cast_rays E g c := cast_rays_congr E _ g c rfl
  have hmiss : (cast_rays E { g with m_last_mouse_position := Vec2d.Zero } c).closest_hit_mesh_id
      = -1 := by
    rw [hcast]; exact (hit_iff_unclipped E g c).2 hun
  rw [hev, hrest, paint_cons_miss E action c _ c rest _ hmiss, hcast]
  have hdrag : decide (action = SLAGizmoEventType.Dragging) = false := by
    rcases ha with rfl | rfl <;> rfl
  simp [hdrag]

theorem clipped_mesh_was_hit_iff (E : Scene) (g : GLGizmoPainterBase) (mp : Vec2d) :
    (cast_rays E g mp).clipped_mesh_was_hit = true ↔
      ∃ k, clipped_hit E g mp (model_parts E.volumes) k = true :=
  (cast_rays_inv E g mp).2.2.1

theorem unclipped_hit_none_of (E : Scene) (g : GLGizmoPainterBase) (mp : Vec2d)
    (parts : List ModelVolume)
    (h : ∀ (k : ℕ) (mv : ModelVolume) (hit : Vec3f) (facet : ℕ), parts[k]? = some mv →
      E.unproject_on_mesh (k : Int) mp (E.trafo_mul E.instance_trafo mv.get_matrix) =
        some (hit, facet) → is_mesh_point_clipped E g hit = true) (k : ℕ) :
    unclipped_hit E g mp parts k = none := by
  cases hu : unclipped_hit E g mp parts k with
  | none => rfl
  | some x =>
    obtain ⟨hit, facet, d⟩ := x
    obtain ⟨mv, hmv, hun, hcl, _⟩ := unclipped_hit_some E g mp parts k hit facet d hu
    have := h k mv hit facet hmv hun
    rw [hcl] at this
    simp at this

theorem clipped_hit_of (E : Scene) (g : GLGizmoPainterBase) (mp : Vec2d)
    (parts : List ModelVolume) (k : ℕ) (mv : ModelVolume) (hit : Vec3f) (facet : ℕ)
    (hmv : parts[k]? = some mv)
    (hu : E.unproject_on_mesh (k : Int) mp (E.trafo_mul E.instance_trafo mv.get_matrix) =
      some (hit, facet)) :
    clipped_hit E g mp parts k = is_mesh_point_clipped E g hit := by
  have hu1 : E.unproject_on_mesh (k : Int) mp (mesh_trafo E mv) = some (hit, facet) := hu
  simp [clipped_hit, hmv, hu1]

theorem clipped_hit_false_of (E : Scene) (g : GLGizmoPainterBase) (mp : Vec2d)
    (parts : List ModelVolume) (k : ℕ)
    (h : ∀ mv, parts[k]? = some mv →
      E.unproject_on_mesh (k : Int) mp (E.trafo_mul E.instance_trafo mv.get_matrix) = none) :
    clipped_hit E g mp parts k = false := by
  unfold clipped_hit
  cases hp : parts[k]? with
  | none => rfl
  | some mv =>
    have hu : E.unproject_on_mesh (k : Int) mp (mesh_trafo E mv) = none := h mv hp
    simp [hu]

/-- C11: a `LeftDown` or `RightDown` with a non-empty selector list whose ray at the
mouse position meets no model-part volume at all returns false, leaves `m_button_down`
as it was and calls nothing, so `select_patch` zero times.  When the ray meets some
volume but every hit is clipped, the event returns true, sets `m_button_down` to the
pressed button if it was `None` (and leaves it otherwise), and again calls nothing. -/
theorem press_without_unclipped_hit (E : Scene) (action : SLAGizmoEventType) (c : Vec2d)
    (shift_down alt_down control_down : Bool) (g : GLGizmoPainterBase)
    (ha : action = SLAGizmoEventType.LeftDown ∨ action = SLAGizmoEventType.RightDown)
    (hsel : g.m_triangle_selectors ≠ 0) :
    ((∀ (k : ℕ) (mv : ModelVolume), (model_parts E.volumes)[k]? = some mv →
        E.unproject_on_mesh (k : Int) c (E.trafo_mul E.instance_trafo mv.get_matrix) = none) →
      (gizmo_event E action c shift_down alt_down control_down g).1 = false ∧
      (gizmo_event E action c shift_down alt_down control_down g).2.m_button_down =
        g.m_button_down ∧
      (gizmo_event E action c shift_down alt_down control_down g).2.log = g.log) ∧
    (((∀ (k : ℕ) (mv : ModelVolume) (hit : Vec3f) (facet : ℕ),
          (model_parts E.volumes)[k]? = some mv →
          E.unproject_on_mesh (k : Int) c (E.trafo_mul E.instance_trafo mv.get_matrix) =
            some (hit, facet) →
          is_mesh_point_clipped E g hit = true) ∧
        (∃ (k : ℕ) (mv : ModelVolume) (hit : Vec3f) (facet : ℕ),
          (model_parts E.volumes)[k]? = some mv ∧
          E.unproject_on_mesh (k : Int) c (E.trafo_mul E.instance_trafo mv.get_matrix) =
            some (hit, facet))) →
      (gizmo_event E action c shift_down alt_down control_down g).1 = true ∧
      (gizmo_event E action c shift_down alt_down control_down g).2.m_button_down =
        (if g.m_button_down = Button.None then
          (if action = SLAGizmoEventType.LeftDown then Button.Left else Button.Right)
        else g.m_button_down) ∧
      (gizmo_event E action c shift_down alt_down control_down g).2.log = g.log) := by
  constructor
  · intro hno
    have hun : ∀ k, unclipped_hit E g c (model_parts E.volumes) k = none :=
      unclipped_hit_none_of E g c _ (fun k mv hit facet hmv hu => by
        rw [hno k mv hmv] at hu; simp at hu)
    have hcl : (cast_rays E g c).clipped_mesh_was_hit = false := by
      cases h : (cast_rays E g c).clipped_mesh_was_hit with
      | false => rfl
      | true =>
        obtain ⟨k, hk⟩ := (clipped_mesh_was_hit_iff E g c).1 h
        rw [clipped_hit_false_of E g c _ k (fun mv hmv => hno k mv hmv)] at hk
        simp at hk
    rw [press_miss E action c shift_down alt_down control_down g ha hsel hun, hcl]
    simp
  · rintro ⟨hall, k, mv, hit, facet, hmv, hu⟩
    have hun : ∀ k, unclipped_hit E g c (model_parts E.volumes) k = none :=
      unclipped_hit_none_of E g c _ hall
    have hcl : (cast_rays E g c).clipped_mesh_was_hit = true := by
      refine (clipped_mesh_was_hit_iff E g c).2 ⟨k, ?_⟩
      rw [clipped_hit_of E g c _ k mv hit facet hmv hu]
      exact hall k mv hit facet hmv hu
    rw [press_miss E action c shift_down alt_down control_down g ha hsel hun, hcl]
    by_cases hb : g.m_button_down = Button.None <;> simp [capture_button, hb]

/-! ## The mouse wheel -/

theorem gap_scene_miss (k : ℕ) (mv : ModelVolume)
    (_h : (model_parts gap_scene.volumes)[k]? = some mv) :
    gap_scene.unproject_on_mesh (k : Int) ⟨15, 0⟩
      (gap_scene.trafo_mul gap_scene.instance_trafo mv.get_matrix) = none := by
  simp only [gap_scene]
  norm_num

theorem clipped_scene_all_clipped (hit : Vec3f) :
    is_mesh_point_clipped clipped_scene idle_gizmo hit = true := by
  simp only [is_mesh_point_clipped, clipped_scene, idle_gizmo, stroke_gizmo]
  norm_num

theorem clipped_scene_hit :
    ∃ (k : ℕ) (mv : ModelVolume) (hit : Vec3f) (facet : ℕ),
      (model_parts clipped_scene.volumes)[k]? = some mv ∧
      clipped_scene.unproject_on_mesh (k : Int) ⟨60, 0⟩
        (clipped_scene.trafo_mul clipped_scene.instance_trafo mv.get_matrix) =
          some (hit, facet) :=
  ⟨0, ⟨true, ⟨[]⟩⟩, ⟨60, 0, 0⟩, 0, by decide!, by decide!⟩

theorem idle_gizmo_has_selectors : idle_gizmo.m_triangle_selectors ≠ 0 := by decide

/-- Witness of C11: a left press at `(15, 0)`, inside the gap of `gap_scene`, is not
consumed; a right press at `(60, 0)` in `clipped_scene`, where the only hit is clipped,
is consumed and captures the right button. -/
theorem press_without_unclipped_hit_witness :
    ((gizmo_event gap_scene SLAGizmoEventType.LeftDown ⟨15, 0⟩ false false false
        idle_gizmo).1 = false ∧
      (gizmo_event gap_scene SLAGizmoEventType.LeftDown ⟨15, 0⟩ false false false
        idle_gizmo).2.m_button_down = Button.None) ∧
    ((gizmo_event clipped_scene SLAGizmoEventType.RightDown ⟨60, 0⟩ false false false
        idle_gizmo).1 = true ∧
      (gizmo_event clipped_scene SLAGizmoEventType.RightDown ⟨60, 0⟩ false false false
        idle_gizmo).2.m_button_down = Button.Right) := by
  have key1 := press_without_unclipped_hit gap_scene SLAGizmoEventType.LeftDown ⟨15, 0⟩
    false false false idle_gizmo (Or.inl rfl) idle_gizmo_has_selectors
  have k1 := key1.1 gap_scene_miss
  have key2 := press_without_unclipped_hit clipped_scene SLAGizmoEventType.RightDown ⟨60, 0⟩
    false false false idle_gizmo (Or.inr rfl) idle_gizmo_has_selectors
  have k2 := key2.2 ⟨fun _ _ hit _ _ _ => clipped_scene_all_clipped hit, clipped_scene_hit⟩
  exact ⟨⟨k1.1, k1.2.1⟩, ⟨k2.1, k2.2.1⟩⟩

theorem pow2_eq_zpow (k : Int) : pow2 k = (2 : ℚ) ^ k := by
  unfold pow2
  split_ifs with h
  · have hk : k = ((k.toNat : ℕ) : ℤ) := (Int.toNat_of_nonneg h).symm
    conv_rhs => rw [hk]
    rw [zpow_natCast]
    push_cast
    rfl
  · have hk : -k = (((-k).toNat : ℕ) : ℤ) := (Int.toNat_of_nonneg (by omega)).symm
    have : k = -(((-k).toNat : ℕ) : ℤ) := by omega
    conv_rhs => rw [this]
    rw [zpow_neg, zpow_natCast]
    push_cast
    rw [one_div]

theorem pow2_pos (k : Int) : 0 < pow2 k := by
  rw [pow2_eq_zpow]
  positivity

theorem bit_length_fuel_zero (fuel : Nat) : bit_length_fuel fuel 0 = 0 := by
  cases fuel <;> simp [bit_length_fuel]

theorem bit_length_fuel_spec (fuel : Nat) :
    ∀ n : Nat, n ≤ fuel → 0 < n →
      2 ^ (bit_length_fuel fuel n - 1) ≤ n ∧ n < 2 ^ bit_length_fuel fuel n ∧
        0 < bit_length_fuel fuel n := by
  induction fuel with
  | zero => intro n h hn; omega
  | succ fuel ih =>
    intro n h hn
    have hne : n ≠ 0 := by omega
    simp only [bit_length_fuel, hne, if_false]
    by_cases h2 : n / 2 = 0
    · have h1 : n = 1 := by omega
      rw [h2, bit_length_fuel_zero]
      subst h1
      simp
    · obtain ⟨i1, i2, i3⟩ := ih (n / 2) (by omega) (by omega)
      generalize bit_length_fuel fuel (n / 2) = b at i1 i2 i3
      obtain ⟨c, rfl⟩ : ∃ c, b = c + 1 := ⟨b - 1, by omega⟩
      simp only [Nat.add_sub_cancel] at i1 ⊢
      refine ⟨?_, ?_, by omega⟩
      · rw [pow_succ]; omega
      · rw [pow_succ] ; rw [pow_succ] at i2; omega

theorem bit_length_spec (n : Nat) (hn : 0 < n) :
    2 ^ (bit_length n - 1) ≤ n ∧ n < 2 ^ bit_length n ∧ 0 < bit_length n :=
  bit_length_fuel_spec n n le_rfl hn

theorem binary_exponent_le (a : ℚ) (ha : 0 < a) : pow2 (binary_exponent a) ≤ a := by
  unfold binary_exponent
  simp only
  split_ifs with h
  · exact h
  · have hnum : 0 < a.num := Rat.num_pos.mpr ha
    have hn : 0 < a.num.natAbs := Int.natAbs_pos.mpr hnum.ne'
    have hm : 0 < a.den := a.den_pos
    obtain ⟨n1, _, n3⟩ := bit_length_spec a.num.natAbs hn
    obtain ⟨_, m2, _⟩ := bit_length_spec a.den hm
    have hk : ((bit_length a.num.natAbs : ℕ) : ℤ) - ((bit_length a.den : ℕ) : ℤ) - 1 =
        ((bit_length a.num.natAbs - 1 : ℕ) : ℤ) - ((bit_length a.den : ℕ) : ℤ) := by
      omega
    rw [pow2_eq_zpow, hk, zpow_sub₀ (by norm_num), zpow_natCast, zpow_natCast]
    have ha_eq : a = (a.num.natAbs : ℚ) / (a.den : ℚ) := by
      have h1 : ((a.num.natAbs : ℕ) : ℤ) = a.num := Int.natAbs_of_nonneg hnum.le
      have h2 : (a.num.natAbs : ℚ) = (a.num : ℚ) := by
        rw [← Int.cast_natCast, h1]
      rw [h2]
      exact (Rat.num_div_den a).symm
    have q1 : ((2 : ℚ) ^ (bit_length a.num.natAbs - 1)) ≤ (a.num.natAbs : ℚ) := by
      exact_mod_cast n1
    have q2 : (a.den : ℚ) ≤ (2 : ℚ) ^ bit_length a.den := by
      exact_mod_cast m2.le
    have hmq : (0 : ℚ) < (a.den : ℚ) := by exact_mod_cast hm
    conv_rhs => rw [ha_eq]
    exact div_le_div₀ (by positivity) q1 hmq q2

theorem round_half_even_error (m : ℚ) : |((round_half_even m : ℤ) : ℚ) - m| ≤ 1 / 2 := by
  have h1 := Int.floor_le m
  have h2 := Int.lt_floor_add_one m
  unfold round_half_even
  rw [abs_le]
  split_ifs <;> push_cast <;> constructor <;> linarith

/-- Rounding to double changes a value by at most the fraction `2 ^ (-53)` of it. -/
theorem round_to_double_error (x : ℚ) : |round_to_double x - x| ≤ |x| / 2 ^ 53 := by
  unfold round_to_double
  split_ifs with h0
  · subst h0; simp
  · have hx : 0 < |x| := abs_pos.mpr h0
    have he := binary_exponent_le |x| hx
    generalize binary_exponent |x| = e at he
    have hq : 0 < pow2 (e - 52) := pow2_pos _
    have hqe : pow2 (e - 52) = pow2 e / 2 ^ 52 := by
      rw [pow2_eq_zpow, pow2_eq_zpow, zpow_sub₀ (by norm_num)]
      norm_cast
    have herr := round_half_even_error (x / pow2 (e - 52))
    simp only
    have key : ((round_half_even (x / pow2 (e - 52)) : ℤ) : ℚ) * pow2 (e - 52) - x =
        (((round_half_even (x / pow2 (e - 52)) : ℤ) : ℚ) - x / pow2 (e - 52)) *
          pow2 (e - 52) := by
      field_simp
    rw [key, abs_mul, abs_of_pos hq]
    calc |((round_half_even (x / pow2 (e - 52)) : ℤ) : ℚ) - x / pow2 (e - 52)| * pow2 (e - 52)
        ≤ 1 / 2 * pow2 (e - 52) := by
          exact mul_le_mul_of_nonneg_right herr hq.le
      _ = pow2 e / 2 ^ 53 := by rw [hqe]; ring
      _ ≤ |x| / 2 ^ 53 := by
          exact div_le_div_of_nonneg_right he (by positivity)

theorem round_to_double_bounds (x : ℚ) (hx : 0 ≤ x) :
    x * (1 - 1 / 2 ^ 53) ≤ round_to_double x ∧ round_to_double x ≤ x * (1 + 1 / 2 ^ 53) := by
  have h := round_to_double_error x
  rw [abs_of_nonneg hx, abs_le] at h
  constructor <;> [linarith [h.1]; linarith [h.2]]

theorem round_to_double_nonneg (x : ℚ) (hx : 0 ≤ x) : 0 ≤ round_to_double x := by
  have h := (round_to_double_bounds x hx).1
  have : 0 ≤ x * (1 - 1 / 2 ^ 53) := mul_nonneg hx (by norm_num)
  linarith

theorem round_to_double_nonpos (x : ℚ) (hx : x ≤ 0) : round_to_double x ≤ 0 := by
  have h := round_to_double_error x
  rw [abs_of_nonpos hx, abs_le] at h
  have : 0 ≤ -x * (1 - 1 / 2 ^ 53) := mul_nonneg (by linarith) (by norm_num)
  have h2 := h.2
  have e : -x / 2 ^ 53 = -x * (1 / 2 ^ 53) := by ring
  rw [e] at h2
  nlinarith

theorem round_to_double_pos (x : ℚ) (hx : 0 < x) : 0 < round_to_double x := by
  have h := (round_to_double_bounds x hx.le).1
  have : 0 < x * (1 - 1 / 2 ^ 53) := mul_pos hx (by norm_num)
  linarith

/-- The quotient of line 250 as the program computes it, against the exact quotient:
for `0 < d ≤ D` it is not negative and within the factors `(1 ± 2 ^ (-53)) ^ 2`. -/
theorem double_quotient_bounds (D d : ℚ) (hd : 0 < d) (hD : d ≤ D) :
    0 ≤ round_to_double (round_to_double (D - d) / d) ∧
    (D - d) / d * (1 - 1 / 2 ^ 53) ^ 2 ≤ round_to_double (round_to_double (D - d) / d) ∧
    round_to_double (round_to_double (D - d) / d) ≤ (D - d) / d * (1 + 1 / 2 ^ 53) ^ 2 := by
  have hx : 0 ≤ D - d := by linarith
  obtain ⟨s1, s2⟩ := round_to_double_bounds (D - d) hx
  have hs : 0 ≤ round_to_double (D - d) := round_to_double_nonneg _ hx
  have hq : 0 ≤ round_to_double (D - d) / d := div_nonneg hs hd.le
  obtain ⟨q1, q2⟩ := round_to_double_bounds _ hq
  refine ⟨round_to_double_nonneg _ hq, ?_, ?_⟩
  · calc (D - d) / d * (1 - 1 / 2 ^ 53) ^ 2
        = (D - d) * (1 - 1 / 2 ^ 53) / d * (1 - 1 / 2 ^ 53) := by ring
      _ ≤ round_to_double (D - d) / d * (1 - 1 / 2 ^ 53) := by
          apply mul_le_mul_of_nonneg_right _ (by norm_num)
          exact div_le_div_of_nonneg_right s1 hd.le
      _ ≤ _ := q1
  · calc round_to_double (round_to_double (D - d) / d)
        ≤ round_to_double (D - d) / d * (1 + 1 / 2 ^ 53) := q2
      _ ≤ (D - d) * (1 + 1 / 2 ^ 53) / d * (1 + 1 / 2 ^ 53) := by
          apply mul_le_mul_of_nonneg_right _ (by norm_num)
          exact div_le_div_of_nonneg_right s2 hd.le
      _ = (D - d) / d * (1 + 1 / 2 ^ 53) ^ 2 := by ring

theorem double_quotient_nonpos (D d : ℚ) (hd : 0 < d) (hD : D ≤ d) :
    round_to_double (round_to_double (D - d) / d) ≤ 0 := by
  have hs : round_to_double (D - d) ≤ 0 := round_to_double_nonpos _ (by linarith)
  exact round_to_double_nonpos _ (div_nonpos_of_nonpos_of_nonneg hs hd.le)

/-- C1: with `d` the value of `diameter_px`, the double product
`0.7 * m_cursor_radius * zoom`, positive, a stored previous sample `p` and `D` the
distance from `p` to the current sample `c`: when `D > d` the list of seed positions is
`c` followed by exactly `floor(q)` intermediate positions, `q` being the quotient
`(D - d) / d` as line 250 computes it, the difference and the quotient each rounded to
the nearest double; `q` is within the factors `(1 ± 2 ^ (-53)) ^ 2` of the exact
quotient.  When `D ≤ d`, or when no previous sample is stored, the list is just `[c]`.
This list is the one that a press, or a drag with a button held, paints from. -/
theorem mouse_positions_count (E : Scene) (g : GLGizmoPainterBase) (c : Vec2d)
    (hd : 0 < diameter_px E g) :
    diameter_px E g =
      round_to_double
        (round_to_double (round_to_double (7 / 10) * g.m_cursor_radius) * E.camera_zoom) ∧
    (g.m_last_mouse_position ≠ Vec2d.Zero →
      (diameter_px E g < E.norm (c - g.m_last_mouse_position) →
        ∃ inter : List Vec2d, mouse_positions E g c = c :: inter ∧
          (inter.length : ℤ) =
            ⌊round_to_double
              (round_to_double (E.norm (c - g.m_last_mouse_position) - diameter_px E g) /
                diameter_px E g)⌋ ∧
          (E.norm (c - g.m_last_mouse_position) - diameter_px E g) / diameter_px E g *
              (1 - 1 / 2 ^ 53) ^ 2 ≤
            round_to_double
              (round_to_double (E.norm (c - g.m_last_mouse_position) - diameter_px E g) /
                diameter_px E g) ∧
          round_to_double
              (round_to_double (E.norm (c - g.m_last_mouse_position) - diameter_px E g) /
                diameter_px E g) ≤
            (E.norm (c - g.m_last_mouse_position) - diameter_px E g) / diameter_px E g *
              (1 + 1 / 2 ^ 53) ^ 2) ∧
      (E.norm (c - g.m_last_mouse_position) ≤ diameter_px E g →
        mouse_positions E g c = [c])) ∧
    (g.m_last_mouse_position = Vec2d.Zero → E.norm Vec2d.Zero = 0 →
      mouse_positions E g c = [c]) ∧
    (∀ (action : SLAGizmoEventType) (shift_down alt_down control_down : Bool),
      (action = SLAGizmoEventType.LeftDown ∨ action = SLAGizmoEventType.RightDown ∨
        (action = SLAGizmoEventType.Dragging ∧ g.m_button_down ≠ Button.None)) →
      g.m_triangle_selectors ≠ 0 →
      gizmo_event E action c shift_down alt_down control_down g =
        paint E action c (new_state action g.m_button_down shift_down)
          (mouse_positions E g c) { g with m_last_mouse_position := Vec2d.Zero }) := by
  refine ⟨rfl, fun hp => ⟨fun hD => ?_, fun hD => ?_⟩, fun hp h0 => ?_, ?_⟩
  · have hlast : last_mouse_position g c = g.m_last_mouse_position := by
      simp [last_mouse_position, hp]
    obtain ⟨hq, b1, b2⟩ :=
      double_quotient_bounds (E.norm (c - g.m_last_mouse_position)) (diameter_px E g) hd hD.le
    have hpatch : patches_in_between E g c =
        ⌊round_to_double
          (round_to_double (E.norm (c - g.m_last_mouse_position) - diameter_px E g) /
            diameter_px E g)⌋ := by
      unfold patches_in_between
      rw [hlast, double_to_int_of_nonneg _ hq]
    by_cases hpos : 0 < patches_in_between E g c
    · refine ⟨_, mouse_positions_of_patches_pos E g c hpos, ?_, b1, b2⟩
      rw [List.length_map, List.length_range, Int.toNat_of_nonneg hpos.le, hpatch]
    · refine ⟨[], mouse_positions_of_patches_le E g c (not_lt.mp hpos), ?_, b1, b2⟩
      have h1 : 0 ≤ patches_in_between E g c := by
        rw [hpatch]; exact Int.floor_nonneg.mpr hq
      rw [← hpatch]
      simp
      omega
  · have hlast : last_mouse_position g c = g.m_last_mouse_position := by
      simp [last_mouse_position, hp]
    refine mouse_positions_of_patches_le E g c ?_
    unfold patches_in_between
    rw [hlast]
    exact double_to_int_of_nonpos _ (double_quotient_nonpos _ _ hd hD)
  · have hlast : last_mouse_position g c = c := by
      simp [last_mouse_position, hp]
    refine mouse_positions_of_patches_le E g c ?_
    unfold patches_in_between
    rw [hlast, Vec2d.sub_self_eq, h0]
    exact double_to_int_of_nonpos _ (double_quotient_nonpos _ _ hd (by linarith))
  · intro action shift_down alt_down control_down ha hsel
    rcases ha with rfl | rfl | ⟨rfl, hb⟩ <;>
      simp [gizmo_event, gizmo_event_after_wheel, paint_event, hsel, *]

theorem resolution_value : resolution = 3152519739159347 / 4503599627370496 := by decide!

theorem round_to_double_abs_le (x : ℚ) : |round_to_double x| ≤ |x| * (1 + 1 / 2 ^ 53) := by
  have h := round_to_double_error x
  have h2 : |round_to_double x| ≤ |round_to_double x - x| + |x| := by
    have := abs_add (round_to_double x - x) x
    simpa using this
  have e : |x| * (1 + 1 / 2 ^ 53) = |x| / 2 ^ 53 + |x| := by ring
  rw [e]
  linarith

theorem round_to_double_zero : round_to_double 0 = 0 := by
  simp [round_to_double]

/-- A positive `diameter_px` is below the brush radius on the screen, as `0.7 < 1`. -/
theorem diameter_px_lt (E : Scene) (g : GLGizmoPainterBase) (hd : 0 < diameter_px E g) :
    0 < g.m_cursor_radius * E.camera_zoom ∧
      diameter_px E g < g.m_cursor_radius * E.camera_zoom := by
  unfold diameter_px at hd ⊢
  have hres : resolution = 3152519739159347 / 4503599627370496 := resolution_value
  generalize hr : g.m_cursor_radius = r at *
  generalize hz : E.camera_zoom = z at *
  have hy2 : 0 < round_to_double (resolution * r) * z := by
    by_contra hle
    have := round_to_double_nonpos _ (not_lt.mp hle)
    linarith
  have hrz : 0 < r * z := by
    rcases lt_trichotomy r 0 with h | h | h
    · have h1 : round_to_double (resolution * r) ≤ 0 :=
        round_to_double_nonpos _ (by rw [hres]; nlinarith)
      have hz0 : z < 0 := by
        by_contra hzz
        have := mul_nonpos_of_nonpos_of_nonneg h1 (not_lt.mp hzz)
        linarith
      exact mul_pos_of_neg_of_neg h hz0
    · subst h
      simp [round_to_double_zero] at hy2
    · have h1 : 0 ≤ round_to_double (resolution * r) :=
        round_to_double_nonneg _ (by rw [hres]; nlinarith)
      have hz0 : 0 < z := by
        by_contra hzz
        have := mul_nonpos_of_nonneg_of_nonpos h1 (not_lt.mp hzz)
        linarith
      exact mul_pos h hz0
  refine ⟨hrz, ?_⟩
  have b1 := (round_to_double_bounds _ hy2.le).2
  have b2 := round_to_double_abs_le (resolution * r)
  have hres0 : (0 : ℚ) ≤ resolution := by rw [hres]; norm_num
  have e1 : round_to_double (resolution * r) * z =
      |round_to_double (resolution * r)| * |z| := by
    rw [← abs_mul, abs_of_pos hy2]
  have e2 : |resolution * r| * |z| = resolution * (r * z) := by
    rw [abs_mul, abs_of_nonneg hres0, mul_assoc, ← abs_mul, abs_of_pos hrz]
  have b3 : round_to_double (resolution * r) * z ≤
      resolution * (r * z) * (1 + 1 / 2 ^ 53) := by
    rw [e1]
    calc |round_to_double (resolution * r)| * |z|
        ≤ |resolution * r| * (1 + 1 / 2 ^ 53) * |z| :=
          mul_le_mul_of_nonneg_right b2 (abs_nonneg _)
      _ = resolution * (r * z) * (1 + 1 / 2 ^ 53) := by rw [← e2]; ring
  have b4 : round_to_double (round_to_double (resolution * r) * z) ≤
      resolution * (r * z) * (1 + 1 / 2 ^ 53) * (1 + 1 / 2 ^ 53) := by
    calc _ ≤ round_to_double (resolution * r) * z * (1 + 1 / 2 ^ 53) := b1
      _ ≤ _ := mul_le_mul_of_nonneg_right b3 (by norm_num)
  have hc : resolution * ((1 + 1 / 2 ^ 53) * (1 + 1 / 2 ^ 53)) < 1 := by
    rw [hres]; norm_num
  calc round_to_double (round_to_double (resolution * r) * z)
      ≤ resolution * (r * z) * (1 + 1 / 2 ^ 53) * (1 + 1 / 2 ^ 53) := b4
    _ = r * z * (resolution * ((1 + 1 / 2 ^ 53) * (1 + 1 / 2 ^ 53))) := by ring
    _ < r * z * 1 := mul_lt_mul_of_pos_left hc hrz
    _ = r * z := mul_one _

theorem stroke_position_step (p c : Vec2d) (n : ℕ) (t : ℚ) :
    stroke_position p c n (t + 1) - stroke_position p c n t =
      (1 / ((n : ℚ) + 1)) * (c - p) := by
  simp only [stroke_position, Vec2d.add_def, Vec2d.sub_def, Vec2d.smul_def, Vec2d.div_def,
    Vec2d.mk.injEq]
  constructor <;> ring

theorem stroke_position_half_step (p c : Vec2d) (n : ℕ) (t : ℚ) :
    stroke_position p c n (t + 1 / 2) - stroke_position p c n t =
        (1 / 2 * (1 / ((n : ℚ) + 1))) * (c - p) ∧
      stroke_position p c n (t + 1 / 2) - stroke_position p c n (t + 1) =
        (-(1 / 2 * (1 / ((n : ℚ) + 1)))) * (c - p) := by
  simp only [stroke_position, Vec2d.add_def, Vec2d.sub_def, Vec2d.smul_def, Vec2d.div_def,
    Vec2d.mk.injEq]
  refine ⟨⟨?_, ?_⟩, ⟨?_, ?_⟩⟩ <;> ring

theorem stroke_position_ends (p c : Vec2d) (n : ℕ) :
    stroke_position p c n 0 = p ∧ stroke_position p c n ((n : ℚ) + 1) = c := by
  have hn : ((n : ℚ) + 1) ≠ 0 := by positivity
  constructor
  · simp [stroke_position, Vec2d.add_def, Vec2d.smul_def, Vec2d.div_def]
  · simp only [stroke_position, Vec2d.add_def, Vec2d.sub_def, Vec2d.smul_def, Vec2d.div_def]
    have e1 : ∀ a b : ℚ, a + ((n : ℚ) + 1) * (b - a) / ((n : ℚ) + 1) = b := by
      intro a b
      field_simp
    rw [e1, e1]

/-- C10: when intermediate positions are inserted between the stored previous sample
`p` and the current sample `c`, at distance `D`, with `d` the positive value of
`diameter_px`, their number `n` is positive, it is the integer part of the quotient
`(D - d) / d` as line 250 computes it in doubles, and they are exactly
`p + i * (c - p) / (n + 1)` for `i = 1..n`; the `n + 2` positions from `p` (`i = 0`) to
`c` (`i = n + 1`) advance by the same vector `(c - p) / (n + 1)`, so they are collinear
and equally spaced.  The spacing `D / (n + 1)` is at least `d * (1 - 2 ^ (-52))` (the
rounding of the quotient can take it below `d` by that fraction) and strictly less than
`2 * d`, hence strictly less than the brush diameter `2 * m_cursor_radius * zoom`.  For
a homogeneous norm, as the Euclidean one is, that spacing is the distance between
consecutive positions, and the brush discs around consecutive positions overlap: the
point halfway between them lies strictly inside both. -/
theorem intermediate_positions_evenly_spaced (E : Scene) (g : GLGizmoPainterBase)
    (c : Vec2d) (hd : 0 < diameter_px E g)
    (hp : g.m_last_mouse_position ≠ Vec2d.Zero)
    (hn : 1 < (mouse_positions E g c).length) :
    ∃ n : ℕ, 0 < n ∧
      (n : ℤ) = ⌊round_to_double
        (round_to_double (E.norm (c - g.m_last_mouse_position) - diameter_px E g) /
          diameter_px E g)⌋ ∧
      mouse_positions E g c = c :: (List.range n).map
        (fun (i : ℕ) => stroke_position g.m_last_mouse_position c n ((i : ℚ) + 1)) ∧
      stroke_position g.m_last_mouse_position c n 0 = g.m_last_mouse_position ∧
      stroke_position g.m_last_mouse_position c n ((n : ℚ) + 1) = c ∧
      (∀ t : ℚ, stroke_position g.m_last_mouse_position c n (t + 1) -
          stroke_position g.m_last_mouse_position c n t =
        (1 / ((n : ℚ) + 1)) * (c - g.m_last_mouse_position)) ∧
      diameter_px E g * (1 - 1 / 2 ^ 52) ≤
        E.norm (c - g.m_last_mouse_position) / ((n : ℚ) + 1) ∧
      E.norm (c - g.m_last_mouse_position) / ((n : ℚ) + 1) < 2 * diameter_px E g ∧
      2 * diameter_px E g < 2 * g.m_cursor_radius * E.camera_zoom ∧
      ((∀ (k : ℚ) (v : Vec2d), E.norm (k * v) = |k| * E.norm v) →
        ∀ i : ℕ, i ≤ n →
          E.norm (stroke_position g.m_last_mouse_position c n ((i : ℚ) + 1) -
              stroke_position g.m_last_mouse_position c n (i : ℚ)) =
            E.norm (c - g.m_last_mouse_position) / ((n : ℚ) + 1) ∧
          ∃ x : Vec2d,
            in_brush_disc E g (stroke_position g.m_last_mouse_position c n (i : ℚ)) x ∧
            in_brush_disc E g
              (stroke_position g.m_last_mouse_position c n ((i : ℚ) + 1)) x) := by
  have hlast : last_mouse_position g c = g.m_last_mouse_position := by
    simp [last_mouse_position, hp]
  have hpos : 0 < patches_in_between E g c := by
    by_contra hle
    rw [mouse_positions_of_patches_le E g c (not_lt.mp hle)] at hn
    simp at hn
  have hpatch := hpos
  unfold patches_in_between at hpatch
  rw [hlast] at hpatch
  obtain ⟨hfloor, hone⟩ := double_to_int_pos _ hpatch
  have hval : patches_in_between E g c =
      ⌊round_to_double
        (round_to_double (E.norm (c - g.m_last_mouse_position) - diameter_px E g) /
          diameter_px E g)⌋ := by
    rw [← hfloor]
    unfold patches_in_between
    rw [hlast]
  have hnat : (((patches_in_between E g c).toNat : ℕ) : ℤ) = patches_in_between E g c :=
    Int.toNat_of_nonneg hpos.le
  obtain ⟨hrz, hdlt⟩ := diameter_px_lt E g hd
  have hlist := mouse_positions_of_patches_pos E g c hpos
  rw [hlast] at hlist
  generalize hN : (patches_in_between E g c).toNat = n at hnat hlist
  generalize hD : E.norm (c - g.m_last_mouse_position) = D at *
  generalize hdd : diameter_px E g = d at *
  generalize hq : round_to_double (round_to_double (D - d) / d) = q at *
  have hDd : d ≤ D := by
    by_contra hlt
    have := double_quotient_nonpos D d hd (not_le.mp hlt).le
    rw [hq] at this
    linarith
  obtain ⟨_, b1, b2⟩ := double_quotient_bounds D d hd hDd
  rw [hq] at b1 b2
  have hn0 : 0 < n := by omega
  have hnq : (0 : ℚ) < (n : ℚ) + 1 := by positivity
  have hn1 : (1 : ℚ) ≤ (n : ℚ) := by exact_mod_cast hn0
  have hlow : (n : ℚ) ≤ q := by
    have : (((n : ℕ) : ℤ) : ℚ) ≤ q := by
      rw [hnat, hval]; exact Int.floor_le _
    simpa using this
  have hhigh : q < (n : ℚ) + 1 := by
    have : q < ((((n : ℕ) : ℤ) : ℚ)) + 1 := by
      rw [hnat, hval]; exact Int.lt_floor_add_one _
    simpa using this
  -- the exact quotient against `n`
  have u1 : (n : ℚ) * d ≤ (D - d) * (1 + 1 / 2 ^ 53) ^ 2 := by
    have := le_trans hlow b2
    rw [div_mul_eq_mul_div, le_div_iff₀ hd] at this
    exact this
  have u2 : (D - d) * (1 - 1 / 2 ^ 53) ^ 2 < ((n : ℚ) + 1) * d := by
    have := lt_of_le_of_lt b1 hhigh
    rw [div_mul_eq_mul_div, div_lt_iff₀ hd] at this
    exact this
  have hspace_low : d * (1 - 1 / 2 ^ 52) ≤ D / ((n : ℚ) + 1) := by
    rw [le_div_iff₀ hnq]
    have w1 : (1 - 1 / 2 ^ 52 : ℚ) * (1 + 1 / 2 ^ 53) ^ 2 ≤ 1 := by norm_num
    have w2 : (1 : ℚ) ≤ (1 + 1 / 2 ^ 53) ^ 2 := by norm_num
    have w3 : (0 : ℚ) < (1 + 1 / 2 ^ 53) ^ 2 := by norm_num
    have s1 : ((n : ℚ) + 1) * d ≤ D * (1 + 1 / 2 ^ 53) ^ 2 := by nlinarith
    have s2 : d * (1 - 1 / 2 ^ 52) * ((n : ℚ) + 1) * (1 + 1 / 2 ^ 53) ^ 2 ≤
        ((n : ℚ) + 1) * d := by
      have hnd : 0 ≤ ((n : ℚ) + 1) * d := by positivity
      calc d * (1 - 1 / 2 ^ 52) * ((n : ℚ) + 1) * (1 + 1 / 2 ^ 53) ^ 2
          = ((n : ℚ) + 1) * d * ((1 - 1 / 2 ^ 52) * (1 + 1 / 2 ^ 53) ^ 2) := by ring
        _ ≤ ((n : ℚ) + 1) * d * 1 := mul_le_mul_of_nonneg_left w1 hnd
        _ = ((n : ℚ) + 1) * d := mul_one _
    exact le_of_mul_le_mul_right (le_trans s2 s1) w3
  have hspace_high : D / ((n : ℚ) + 1) < 2 * d := by
    rw [div_lt_iff₀ hnq]
    have v1 : (2 / 3 : ℚ) ≤ (1 - 1 / 2 ^ 53) ^ 2 := by norm_num
    have v2 : (1 - 1 / 2 ^ 53 : ℚ) ^ 2 ≤ 1 := by norm_num
    have hDd0 : 0 ≤ D - d := by linarith
    have s1 : (D - d) * (2 / 3) ≤ (D - d) * (1 - 1 / 2 ^ 53) ^ 2 :=
      mul_le_mul_of_nonneg_left v1 hDd0
    nlinarith
  refine ⟨n, hn0, by rw [hnat, hval], hlist,
    (stroke_position_ends _ c n).1, (stroke_position_ends _ c n).2,
    fun t => stroke_position_step _ c n t, hspace_low, hspace_high, by linarith, ?_⟩
  intro hhom i _
  have hk : |(1 / ((n : ℚ) + 1))| = 1 / ((n : ℚ) + 1) := abs_of_pos (by positivity)
  have hk2 : |(1 / 2 * (1 / ((n : ℚ) + 1)))| = 1 / 2 * (1 / ((n : ℚ) + 1)) :=
    abs_of_pos (by positivity)
  obtain ⟨m1, m2⟩ := stroke_position_half_step g.m_last_mouse_position c n (i : ℚ)
  have hhalf : 1 / 2 * (1 / ((n : ℚ) + 1)) * D < g.m_cursor_radius * E.camera_zoom := by
    have : 1 / 2 * (1 / ((n : ℚ) + 1)) * D = D / ((n : ℚ) + 1) / 2 := by
      ring
    rw [this]
    linarith
  refine ⟨?_, stroke_position g.m_last_mouse_position c n ((i : ℚ) + 1 / 2), ?_, ?_⟩
  · rw [stroke_position_step, hhom, hk, hD]
    ring
  · unfold in_brush_disc
    rw [m1, hhom, hk2, hD]
    exact hhalf
  · unfold in_brush_disc
    rw [m2, hhom, abs_neg, hk2, hD]
    exact hhalf

/-! ## The seed positions at the concrete scenes -/

theorem stroke_diameter_pos : 0 < diameter_px gap_scene stroke_gizmo := by decide!

theorem stroke_distance_gt :
    diameter_px gap_scene stroke_gizmo <
      gap_scene.norm ((⟨60, 0⟩ : Vec2d) - stroke_gizmo.m_last_mouse_position) := by decide!

theorem stroke_floor :
    ⌊round_to_double
      (round_to_double
          (gap_scene.norm ((⟨60, 0⟩ : Vec2d) - stroke_gizmo.m_last_mouse_position) -
            diameter_px gap_scene stroke_gizmo) /
        diameter_px gap_scene stroke_gizmo)⌋ = 6 := by decide!

/-- Witness of C1 at `gap_scene` and `stroke_gizmo`: from `(10, 0)` to `(60, 0)`, at
distance 50 with `d = 7`, six intermediate positions are added. -/
theorem mouse_positions_count_witness :
    0 < diameter_px gap_scene stroke_gizmo ∧
      ∃ inter : List Vec2d,
        mouse_positions gap_scene stroke_gizmo ⟨60, 0⟩ = ⟨60, 0⟩ :: inter ∧
          (inter.length : ℤ) = 6 := by
  have key := mouse_positions_count gap_scene stroke_gizmo ⟨60, 0⟩ stroke_diameter_pos
  have k0 := key.2.1 stroke_last_ne_zero
  have k1 := k0.1
  obtain ⟨inter, h1, h2, _⟩ := k1 stroke_distance_gt
  exact ⟨stroke_diameter_pos, inter, h1, h2.trans stroke_floor⟩

/-- Witness of C10 at `gap_scene` and `stroke_gizmo`: the intermediate positions from
`(10, 0)` to `(60, 0)`. -/
theorem intermediate_positions_evenly_spaced_witness :
    0 < diameter_px gap_scene stroke_gizmo ∧
      stroke_gizmo.m_last_mouse_position ≠ Vec2d.Zero ∧
      1 < (mouse_positions gap_scene stroke_gizmo ⟨60, 0⟩).length ∧
      ∃ n : ℕ, 0 < n ∧
        mouse_positions gap_scene stroke_gizmo ⟨60, 0⟩ = ⟨60, 0⟩ :: (List.range n).map
          (fun (i : ℕ) =>
            stroke_position stroke_gizmo.m_last_mouse_position ⟨60, 0⟩ n ((i : ℚ) + 1)) := by
  have key := intermediate_positions_evenly_spaced gap_scene stroke_gizmo ⟨60, 0⟩
    stroke_diameter_pos stroke_last_ne_zero stroke_positions_length
  obtain ⟨n, h0, _, h2, _⟩ := key
  exact ⟨stroke_diameter_pos, stroke_last_ne_zero, stroke_positions_length, n, h0, h2⟩

/-- C1 as stated, with the exact quotient, fails at radius 8 and the zoom held by the
double `3.95`, for a drag from `(1, 0)` to `(554, 0)`, at distance 553: the diameter is
positive and below the distance, `floor((D - d) / d)` is 23, for `d` the exact product
`0.7 * 8 * zoom` as for `d` the value of `diameter_px`, yet 24 intermediate positions
are added, the double quotient being rounded up to 24. -/
theorem seed_count_differs_from_exact_floor :
    0 < 7 / 10 * long_stroke_gizmo.m_cursor_radius * zoomed_scene.camera_zoom ∧
    long_stroke_gizmo.m_last_mouse_position ≠ Vec2d.Zero ∧
    7 / 10 * long_stroke_gizmo.m_cursor_radius * zoomed_scene.camera_zoom <
      zoomed_scene.norm ((⟨554, 0⟩ : Vec2d) - long_stroke_gizmo.m_last_mouse_position) ∧
    ⌊(zoomed_scene.norm ((⟨554, 0⟩ : Vec2d) - long_stroke_gizmo.m_last_mouse_position) -
        7 / 10 * long_stroke_gizmo.m_cursor_radius * zoomed_scene.camera_zoom) /
      (7 / 10 * long_stroke_gizmo.m_cursor_radius * zoomed_scene.camera_zoom)⌋ = 23 ∧
    ⌊(zoomed_scene.norm ((⟨554, 0⟩ : Vec2d) - long_stroke_gizmo.m_last_mouse_position) -
        diameter_px zoomed_scene long_stroke_gizmo) /
      diameter_px zoomed_scene long_stroke_gizmo⌋ = 23 ∧
    (mouse_positions zoomed_scene long_stroke_gizmo ⟨554, 0⟩).length = 1 + 24 := by
  decide!

/-- C10 as stated fails at the same input: 24 positions are inserted between `(1, 0)`
and `(554, 0)`, and the spacing `553 / 25` is below the diameter, for `d` the exact
product `0.7 * 8 * zoom` as for `d` the value of `diameter_px`. -/
theorem spacing_falls_below_diameter :
    0 < 7 / 10 * long_stroke_gizmo.m_cursor_radius * zoomed_scene.camera_zoom ∧
    long_stroke_gizmo.m_last_mouse_position ≠ Vec2d.Zero ∧
    (mouse_positions zoomed_scene long_stroke_gizmo ⟨554, 0⟩).length = 1 + 24 ∧
    ¬(7 / 10 * long_stroke_gizmo.m_cursor_radius * zoomed_scene.camera_zoom ≤
      zoomed_scene.norm ((⟨554, 0⟩ : Vec2d) - long_stroke_gizmo.m_last_mouse_position) /
        (24 + 1)) ∧
    ¬(diameter_px zoomed_scene long_stroke_gizmo ≤
      zoomed_scene.norm ((⟨554, 0⟩ : Vec2d) - long_stroke_gizmo.m_last_mouse_position) /
        (24 + 1)) := by
  decide!

end GUI
end Slic3r
